import Mathlib

/-!
The barber-api services: appointment scheduling and product catalog services

A shallow embedding of `internal/domain/models.go`,
`internal/service/appointment_service.go` and
`internal/service/product_service.go`.

* `time.Time` instants are integers on a linear clock (`Before` is `<`, `After` is `>`).
* `float64` is an arbitrary carrier `F` with the three operations the services use
  (`0`, `+`, `<=`); no law of arithmetic is assumed about them.
* Go's `error` results are `Option Error` (`none` is `nil`).
* The repositories are Go interfaces: records of operations over a persistence state `σ`.
  A method taking a pointer returns the pointee as it leaves it.
-/

namespace BarberApi

/-- Instants of `time.Time` on a linear clock. -/
abbrev Time := Int

/-- The operations on `float64` used by the services: the zero value, `+` and `<=`. -/
class Float64Ops (F : Type) where
  zero : F
  add : F → F → F
  le : F → F → Bool

/-- Go error values: the two sentinels of `domain`, a value made by `errors.New`, and
an opaque failure raised by a persistence collaborator. -/
inductive Error where
  | ErrNotFound
  | ErrInvalidInput
  | New (msg : String)
  | Persistence (code : Nat)
  deriving DecidableEq, Repr

/-- The test `errors.Is(err, target)` for errors without an unwrap chain: identity of the value. -/
def Error.Is (err target : Error) : Bool := decide (err = target)

/-- The struct `domain.Product`. -/
structure Product (F : Type) where
  ID : Nat
  Name : String
  Price : F
  Description : String
  CreatedAt : Time
  UpdatedAt : Time
  deriving DecidableEq, Repr

/-- The struct `domain.Appointment`. -/
structure Appointment (F : Type) where
  ID : Nat
  ClientName : String
  StartTime : Time
  EndTime : Time
  Products : List (Product F)
  CreatedAt : Time
  UpdatedAt : Time
  deriving DecidableEq, Repr

/-- Modelled from the spec: the interface `domain.AppointmentRepo` (its declaration is not
in the source tree), with the five operations of spec §6 and the signatures of the call
sites in `appointment_service.go`. -/
structure AppointmentRepo (F σ : Type) where
  Create : Appointment F → σ → (Option Error × Appointment F) × σ
  GetById : Nat → σ → Except Error (Appointment F) × σ
  List : σ → Except Error (List (Appointment F)) × σ
  Update : Appointment F → σ → (Option Error × Appointment F) × σ
  Delete : Nat → σ → Option Error × σ

/-- Modelled from the spec: the interface `domain.ProductRepo` (its declaration is not in
the source tree), with the five operations of spec §6 and the signatures of the call sites
in `product_service.go` and `appointment_service.go`. -/
structure ProductRepo (F σ : Type) where
  Create : Product F → σ → (Option Error × Product F) × σ
  GetById : Nat → σ → Except Error (Product F) × σ
  List : σ → Except Error (List (Product F)) × σ
  Update : Product F → σ → (Option Error × Product F) × σ
  Delete : Nat → σ → Option Error × σ

/-- The struct `service.AppointmentService`. -/
structure AppointmentService (F σ : Type) where
  apptRepo : AppointmentRepo F σ
  prodRepo : ProductRepo F σ

/-- The struct `service.ProductService`. -/
structure ProductService (F σ : Type) where
  productRepo : ProductRepo F σ

section Services

variable {F σ : Type}

/-- Method `AppointmentService.appointmentsOverlap`: both conjuncts are the same comparison,
as in the source. -/
def appointmentsOverlap (a1 a2 : Appointment F) : Bool :=
  decide (a1.StartTime < a2.EndTime) && decide (a1.StartTime < a2.EndTime)

/-- The product loop shared by `Schedule` and `Update`
(`for i, prod := range appt.Products`): returns the slice as the loop leaves it and the
error it returned, if any. -/
def resolveProducts (prodRepo : ProductRepo F σ) :
    List (Product F) → σ → (Option Error × List (Product F)) × σ
  | [], w => ((none, []), w)
  | prod :: rest, w =>
    match prodRepo.GetById prod.ID w with
    | (.error err, w1) =>
      if err.Is Error.ErrNotFound then
        ((some (Error.New "el producto no existe"), prod :: rest), w1)
      else
        ((some err, prod :: rest), w1)
    | (.ok existingProd, w1) =>
      match resolveProducts prodRepo rest w1 with
      | ((e, rest1), w2) => ((e, existingProd :: rest1), w2)

/-- Method `AppointmentService.Schedule`; `now` is the value of `time.Now()`. Returns the error
and the appointment behind the pointer as the call leaves it. -/
def Schedule (s : AppointmentService F σ) (now : Time) (appt : Appointment F) (w : σ) :
    (Option Error × Appointment F) × σ :=
  if appt.StartTime < now then
    ((some (Error.New "la cita debe ser en el pasado"), appt), w)
  else if ¬ (appt.EndTime > appt.StartTime) then
    ((some (Error.New "la hora de fin debe ser posterior a la de inicio"), appt), w)
  else
    match s.apptRepo.List w with
    | (.error err, w1) => ((some err, appt), w1)
    | (.ok existingAppts, w1) =>
      if existingAppts.any (fun existing => appointmentsOverlap appt existing) then
        ((some (Error.New "el turno se solapa con otro existente"), appt), w1)
      else
        match resolveProducts s.prodRepo appt.Products w1 with
        | ((some err, products), w2) => ((some err, { appt with Products := products }), w2)
        | ((none, products), w2) => s.apptRepo.Create { appt with Products := products } w2

/-- Method `AppointmentService.GetByID` -/
def AppointmentService.GetByID (s : AppointmentService F σ) (id : Nat) (w : σ) :
    Except Error (Appointment F) × σ :=
  s.apptRepo.GetById id w

/-- Method `AppointmentService.ListAll` -/
def AppointmentService.ListAll (s : AppointmentService F σ) (w : σ) :
    Except Error (List (Appointment F)) × σ :=
  s.apptRepo.List w

/-- Method `AppointmentService.Update`; `now` is the value of `time.Now()`. -/
def Update (s : AppointmentService F σ) (now : Time) (id : Nat)
    (updatedAppt : Appointment F) (w : σ) : (Option Error × Appointment F) × σ :=
  match s.apptRepo.GetById id w with
  | (.error err, w1) => ((some err, updatedAppt), w1)
  | (.ok existing, w1) =>
    let updatedAppt := { updatedAppt with ID := existing.ID }
    if updatedAppt.StartTime < now then
      ((some (Error.New "la cita no puede ser en el pasado"), updatedAppt), w1)
    else if ¬ (updatedAppt.EndTime > updatedAppt.StartTime) then
      ((some (Error.New "la hora de fin debe ser posterior a la de inicio"), updatedAppt), w1)
    else
      match s.apptRepo.List w1 with
      | (.error err, w2) => ((some err, updatedAppt), w2)
      | (.ok existingAppts, w2) =>
        if existingAppts.any
            (fun existing => decide (existing.ID ≠ id) && appointmentsOverlap updatedAppt existing)
        then
          ((some (Error.New "el turno se solapa con otro existente"), updatedAppt), w2)
        else
          match resolveProducts s.prodRepo updatedAppt.Products w2 with
          | ((some err, products), w3) =>
            ((some err, { updatedAppt with Products := products }), w3)
          | ((none, products), w3) =>
            s.apptRepo.Update { updatedAppt with Products := products } w3

/-- Method `AppointmentService.Cancel` -/
def Cancel (s : AppointmentService F σ) (id : Nat) (w : σ) : Option Error × σ :=
  match s.apptRepo.GetById id w with
  | (.error err, w1) => (some err, w1)
  | (.ok _, w1) => s.apptRepo.Delete id w1

/-- Method `AppointmentService.GetTotalPrice`: the pair `(total, err)` the Go function returns. -/
def GetTotalPrice [Float64Ops F] (s : AppointmentService F σ) (id : Nat) (w : σ) :
    (F × Option Error) × σ :=
  match s.apptRepo.GetById id w with
  | (.error err, w1) => ((Float64Ops.zero, some err), w1)
  | (.ok appt, w1) =>
    ((appt.Products.foldl (fun total prod => Float64Ops.add total prod.Price) Float64Ops.zero,
      none), w1)

/-- Method `ProductService.Create` -/
def ProductService.Create [Float64Ops F] (s : ProductService F σ) (product : Product F)
    (w : σ) : (Option Error × Product F) × σ :=
  if product.Name = "" then
    ((some (Error.New "el nombre del producto no puede estar vació"), product), w)
  else if Float64Ops.le product.Price Float64Ops.zero then
    ((some (Error.New "el precio del producto debe ser mayor a 0"), product), w)
  else
    match s.productRepo.List w with
    | (.error err, w1) => ((some err, product), w1)
    | (.ok existing, w1) =>
      if existing.any (fun existingProd => decide (existingProd.Name = product.Name)) then
        ((some (Error.New "ya existe un producto con ese nombre"), product), w1)
      else
        s.productRepo.Create product w1

/-- Method `ProductService.ListAll` -/
def ProductService.ListAll (s : ProductService F σ) (w : σ) :
    Except Error (List (Product F)) × σ :=
  s.productRepo.List w

/-- Method `ProductService.GetByID` -/
def ProductService.GetByID (s : ProductService F σ) (id : Nat) (w : σ) :
    Except Error (Product F) × σ :=
  s.productRepo.GetById id w

/-- Method `ProductService.Update` -/
def ProductService.Update [Float64Ops F] (s : ProductService F σ) (id : Nat)
    (updatedProduct : Product F) (w : σ) : (Option Error × Product F) × σ :=
  if updatedProduct.Name = "" then
    ((some (Error.New "el nombre del producto no puede estar vació"), updatedProduct), w)
  else if Float64Ops.le updatedProduct.Price Float64Ops.zero then
    ((some (Error.New "el precio del producto debe ser mayor a 0"), updatedProduct), w)
  else
    match s.productRepo.GetById id w with
    | (.error err, w1) => ((some err, updatedProduct), w1)
    | (.ok existing, w1) =>
      match s.productRepo.List w1 with
      | (.error err, w2) => ((some err, updatedProduct), w2)
      | (.ok existingProducts, w2) =>
        if existingProducts.any (fun existingProd =>
            decide (existingProd.Name = updatedProduct.Name) && decide (existingProd.ID ≠ id))
        then
          ((some (Error.New "ya existe un producto con ese nombre"), updatedProduct), w2)
        else
          s.productRepo.Update { updatedProduct with ID := existing.ID } w2

/-- Method `ProductService.Delete` -/
def ProductService.Delete (s : ProductService F σ) (id : Nat) (w : σ) : Option Error × σ :=
  match s.productRepo.GetById id w with
  | (.error err, w1) => (some err, w1)
  | (.ok _, w1) => s.productRepo.Delete id w1

end Services

/-! A list-backed persistence layer -/

section ListModel

variable {F : Type}

/-- A repository method call, with its argument. -/
inductive Call (F : Type) where
  | apptCreate (a : Appointment F)
  | apptGetById (id : Nat)
  | apptList
  | apptUpdate (a : Appointment F)
  | apptDelete (id : Nat)
  | prodCreate (p : Product F)
  | prodGetById (id : Nat)
  | prodList
  | prodUpdate (p : Product F)
  | prodDelete (id : Nat)
  deriving DecidableEq, Repr

/-- Modelled from the spec: the persistence state behind the two repositories (their
implementation is not in the source tree): the stored appointments and products in
insertion order, and the trace of the repository calls made so far. -/
structure Store (F : Type) where
  appts : List (Appointment F)
  prods : List (Product F)
  calls : List (Call F)
  deriving DecidableEq, Repr

/-- Appends a call to the trace. -/
def Store.record (w : Store F) (c : Call F) : Store F :=
  { w with calls := w.calls ++ [c] }

/-- Modelled from the spec: the identifier persistence assigns to a new record ("opaque
positive integer, assigned by persistence"): one more than every identifier in use. -/
def freshID (ids : List Nat) : Nat := ids.foldr max 0 + 1

/-- Modelled from the spec: the appointment repository of spec §6 over a list (its
implementation is not in the source tree). `Create` appends the record under a fresh
identifier, `GetById` fails with the distinguished not-found condition if absent, `List`
returns the full collection, `Update` replaces the record with the same identifier,
`Delete` removes it. -/
def listApptRepo : AppointmentRepo F (Store F) where
  Create := fun a w =>
    let stored := { a with ID := freshID (w.appts.map (fun r => r.ID)) }
    ((none, stored), { (w.record (Call.apptCreate a)) with appts := w.appts ++ [stored] })
  GetById := fun id w =>
    match w.appts.find? (fun r => decide (r.ID = id)) with
    | some a => (.ok a, w.record (Call.apptGetById id))
    | none => (.error Error.ErrNotFound, w.record (Call.apptGetById id))
  List := fun w => (.ok w.appts, w.record Call.apptList)
  Update := fun a w =>
    ((none, a), { (w.record (Call.apptUpdate a)) with
      appts := w.appts.map (fun r => if r.ID = a.ID then a else r) })
  Delete := fun id w =>
    (none, { (w.record (Call.apptDelete id)) with
      appts := w.appts.filter (fun r => decide (r.ID ≠ id)) })

/-- Modelled from the spec: the product repository of spec §6 over a list (its
implementation is not in the source tree), with the same five operations. -/
def listProdRepo : ProductRepo F (Store F) where
  Create := fun p w =>
    let stored := { p with ID := freshID (w.prods.map (fun r => r.ID)) }
    ((none, stored), { (w.record (Call.prodCreate p)) with prods := w.prods ++ [stored] })
  GetById := fun id w =>
    match w.prods.find? (fun r => decide (r.ID = id)) with
    | some p => (.ok p, w.record (Call.prodGetById id))
    | none => (.error Error.ErrNotFound, w.record (Call.prodGetById id))
  List := fun w => (.ok w.prods, w.record Call.prodList)
  Update := fun p w =>
    ((none, p), { (w.record (Call.prodUpdate p)) with
      prods := w.prods.map (fun r => if r.ID = p.ID then p else r) })
  Delete := fun id w =>
    (none, { (w.record (Call.prodDelete id)) with
      prods := w.prods.filter (fun r => decide (r.ID ≠ id)) })

/-- The appointment service wired to the list-backed repositories. -/
def apptSvc : AppointmentService F (Store F) := ⟨listApptRepo, listProdRepo⟩

/-- The product service wired to the list-backed repository. -/
def prodSvc : ProductService F (Store F) := ⟨listProdRepo⟩

/-- The record `Schedule` hands to `Create`: the candidate with its products resolved. -/
def scheduleArg (appt : Appointment F) (w : Store F) : Appointment F :=
  { appt with
    Products := (resolveProducts listProdRepo appt.Products (w.record Call.apptList)).1.2 }

/-- The record `Update` hands to the repository: the payload under the identifier `id`,
with its products resolved. -/
def updateArg (id : Nat) (upd : Appointment F) (w : Store F) : Appointment F :=
  { upd with
    ID := id
    Products := (resolveProducts listProdRepo upd.Products
      ((w.record (Call.apptGetById id)).record Call.apptList)).1.2 }

/-- The symmetric interval-intersection test of spec §4.1. -/
def overlapSym (a b : Appointment F) : Prop :=
  a.StartTime < b.EndTime ∧ b.StartTime < a.EndTime

instance (a b : Appointment F) : Decidable (overlapSym a b) := by
  unfold overlapSym; infer_instance

/-- No two stored appointments overlap (spec, Invariant C). -/
def NoOverlap (l : List (Appointment F)) : Prop :=
  l.Pairwise (fun a b => ¬ overlapSym a b)

/-- Stored appointments have pairwise distinct identifiers. -/
def UniqueApptIDs (l : List (Appointment F)) : Prop :=
  (l.map (fun r => r.ID)).Nodup

/-- Stored products have pairwise distinct identifiers. -/
def UniqueProdIDs (l : List (Product F)) : Prop :=
  (l.map (fun r => r.ID)).Nodup

/-- No two stored products share a name (spec §3). -/
def UniqueNames (l : List (Product F)) : Prop :=
  (l.map (fun r => r.Name)).Nodup

/-- Integer prices (for instance in cents) as a carrier for the `float64` operations. -/
instance : Float64Ops Int where
  zero := 0
  add := fun a b => a + b
  le := fun a b => decide (a ≤ b)

end ListModel

/-! Scenarios -/

section Scenarios

/-- Minutes since midnight of the day of the scenarios. -/
def hm (h m : Int) : Time := h * 60 + m

/-- An appointment with the given identifier, client and interval, and no products. -/
def slot (id : Nat) (client : String) (s e : Time) : Appointment Int :=
  ⟨id, client, s, e, [], 0, 0⟩

/-- A store holding one appointment, 10:00 to 10:30, and a one-product catalog. -/
def store1 : Store Int :=
  ⟨[slot 1 "Ana" (hm 10 0) (hm 10 30)], [⟨1, "Haircut", 20, "", 0, 0⟩], []⟩

/-- A store holding two appointments that do not overlap: 10:00 to 10:30 and 11:00 to
11:30. -/
def store2 : Store Int :=
  ⟨[slot 1 "Ana" (hm 10 0) (hm 10 30), slot 2 "Luis" (hm 11 0) (hm 11 30)],
    [⟨1, "Haircut", 20, "", 0, 0⟩], []⟩

/-- A store with no appointment and a one-product catalog. -/
def store0 : Store Int := ⟨[], [⟨1, "Haircut", 20, "", 0, 0⟩], []⟩

/-- A product reference as the transport layer builds it: only the identifier is set. -/
def ref (id : Nat) : Product Int := ⟨id, "", 0, "", 0, 0⟩

end Scenarios

/-! Facts about the list-backed persistence layer -/

section ListFacts

variable {F : Type}

theorem freshID_not_mem (ids : List Nat) : freshID ids ∉ ids := by
  have hle : ∀ l : List Nat, ∀ x ∈ l, x ≤ l.foldr max 0 := by
    intro l
    induction l with
    | nil => intro x hx; simp at hx
    | cons a t ih =>
      intro x hx
      simp only [List.mem_cons] at hx
      simp only [List.foldr_cons]
      rcases hx with rfl | hx
      · exact le_max_left _ _
      · exact le_trans (ih x hx) (le_max_right _ _)
  intro hmem
  have := hle ids _ hmem
  unfold freshID at this
  omega

theorem resolveProducts_cons_found (p q : Product F) (rest : List (Product F)) (w : Store F)
    (h : w.prods.find? (fun r => decide (r.ID = p.ID)) = some q) :
    resolveProducts listProdRepo (p :: rest) w =
      (((resolveProducts listProdRepo rest (w.record (Call.prodGetById p.ID))).1.1,
        q :: (resolveProducts listProdRepo rest (w.record (Call.prodGetById p.ID))).1.2),
       (resolveProducts listProdRepo rest (w.record (Call.prodGetById p.ID))).2) := by
  simp only [resolveProducts, listProdRepo, h]

theorem resolveProducts_cons_missing (p : Product F) (rest : List (Product F)) (w : Store F)
    (h : w.prods.find? (fun r => decide (r.ID = p.ID)) = none) :
    resolveProducts listProdRepo (p :: rest) w =
      ((some (Error.New "el producto no existe"), p :: rest),
       w.record (Call.prodGetById p.ID)) := by
  simp [resolveProducts, listProdRepo, h, Error.Is]

theorem resolveProducts_appts (ps : List (Product F)) (w : Store F) :
    (resolveProducts listProdRepo ps w).2.appts = w.appts := by
  induction ps generalizing w with
  | nil => rfl
  | cons p rest ih =>
    cases h : w.prods.find? (fun r => decide (r.ID = p.ID)) with
    | none => rw [resolveProducts_cons_missing p rest w h]; rfl
    | some q => rw [resolveProducts_cons_found p q rest w h]; exact ih _

theorem resolveProducts_prods (ps : List (Product F)) (w : Store F) :
    (resolveProducts listProdRepo ps w).2.prods = w.prods := by
  induction ps generalizing w with
  | nil => rfl
  | cons p rest ih =>
    cases h : w.prods.find? (fun r => decide (r.ID = p.ID)) with
    | none => rw [resolveProducts_cons_missing p rest w h]; rfl
    | some q => rw [resolveProducts_cons_found p q rest w h]; exact ih _

/-- In the list model the product loop fails only with the "producto no existe" error. -/
theorem resolveProducts_error (ps : List (Product F)) (w : Store F) (e : Error)
    (he : (resolveProducts listProdRepo ps w).1.1 = some e) :
    e = Error.New "el producto no existe" := by
  induction ps generalizing w with
  | nil => simp [resolveProducts] at he
  | cons p rest ih =>
    cases h : w.prods.find? (fun r => decide (r.ID = p.ID)) with
    | none =>
      rw [resolveProducts_cons_missing p rest w h] at he
      simpa using he.symm
    | some q =>
      rw [resolveProducts_cons_found p q rest w h] at he
      exact ih _ he

/-- The product loop succeeds exactly when every referenced identifier is in the catalog. -/
theorem resolveProducts_none_iff (ps : List (Product F)) (w : Store F) :
    (resolveProducts listProdRepo ps w).1.1 = none ↔
      ∀ p ∈ ps, ∃ q ∈ w.prods, q.ID = p.ID := by
  induction ps generalizing w with
  | nil => simp [resolveProducts]
  | cons p rest ih =>
    cases h : w.prods.find? (fun r => decide (r.ID = p.ID)) with
    | none =>
      rw [resolveProducts_cons_missing p rest w h]
      simp only [reduceCtorEq, List.mem_cons, forall_eq_or_imp, false_iff, not_and]
      intro hq
      obtain ⟨q, hq, hid⟩ := hq
      have := List.find?_eq_none.mp h q hq
      simp [hid] at this
    | some q =>
      rw [resolveProducts_cons_found p q rest w h]
      simp only [List.mem_cons, forall_eq_or_imp]
      rw [ih]
      have hq := List.find?_some h
      have hmem := List.mem_of_find?_eq_some h
      simp only [decide_eq_true_eq] at hq
      constructor
      · intro hr
        exact ⟨⟨q, hmem, hq⟩, hr⟩
      · intro hr
        exact hr.2

/-- On success the k-th resolved entry is the catalog record found for the k-th reference. -/
theorem resolveProducts_forall2 (ps : List (Product F)) (w : Store F)
    (he : (resolveProducts listProdRepo ps w).1.1 = none) :
    List.Forall₂ (fun p q => w.prods.find? (fun r => decide (r.ID = p.ID)) = some q)
      ps (resolveProducts listProdRepo ps w).1.2 := by
  induction ps generalizing w with
  | nil => simp [resolveProducts]
  | cons p rest ih =>
    cases h : w.prods.find? (fun r => decide (r.ID = p.ID)) with
    | none =>
      rw [resolveProducts_cons_missing p rest w h] at he
      simp at he
    | some q =>
      rw [resolveProducts_cons_found p q rest w h] at he ⊢
      exact List.Forall₂.cons h (ih _ he)

/-- On success the product loop has looked up every reference once, in order. -/
theorem resolveProducts_calls (ps : List (Product F)) (w : Store F)
    (he : (resolveProducts listProdRepo ps w).1.1 = none) :
    (resolveProducts listProdRepo ps w).2.calls =
      w.calls ++ ps.map (fun p => Call.prodGetById p.ID) := by
  induction ps generalizing w with
  | nil => simp [resolveProducts]
  | cons p rest ih =>
    cases h : w.prods.find? (fun r => decide (r.ID = p.ID)) with
    | none =>
      rw [resolveProducts_cons_missing p rest w h] at he
      simp at he
    | some q =>
      rw [resolveProducts_cons_found p q rest w h] at he ⊢
      simp only []
      rw [ih _ he]
      simp [Store.record]

/-- Whatever its outcome, the product loop only looks products up: its calls are lookups
of an initial segment of the referenced identifiers. -/
theorem resolveProducts_calls_lookups (ps : List (Product F)) (w : Store F) :
    ∃ ids : List Nat, ids <+: ps.map (fun p => p.ID) ∧
      (resolveProducts listProdRepo ps w).2.calls =
        w.calls ++ ids.map (fun i => Call.prodGetById i) := by
  induction ps generalizing w with
  | nil => exact ⟨[], List.prefix_refl _, by simp [resolveProducts]⟩
  | cons p rest ih =>
    cases h : w.prods.find? (fun r => decide (r.ID = p.ID)) with
    | none =>
      rw [resolveProducts_cons_missing p rest w h]
      refine ⟨[p.ID], ?_, by simp [Store.record]⟩
      simp [List.prefix_iff_eq_append]
    | some q =>
      rw [resolveProducts_cons_found p q rest w h]
      obtain ⟨ids, hpre, hcalls⟩ := ih (w.record (Call.prodGetById p.ID))
      refine ⟨p.ID :: ids, ?_, ?_⟩
      · simpa using hpre
      · simp only [hcalls]
        simp [Store.record]

/-- The conflict scan of `Schedule` finds nothing exactly when the candidate starts at or
after the end of every stored appointment. -/
theorem scan_false_iff (c : Appointment F) (l : List (Appointment F)) :
    l.any (fun existing => appointmentsOverlap c existing) = false ↔
      ∀ e ∈ l, e.EndTime ≤ c.StartTime := by
  simp [appointmentsOverlap]

/-- The conflict scan of `Update` skips the records stored under `id`. -/
theorem scanExcept_false_iff (id : Nat) (c : Appointment F) (l : List (Appointment F)) :
    l.any (fun existing => decide (existing.ID ≠ id) && appointmentsOverlap c existing) = false ↔
      ∀ e ∈ l, e.ID ≠ id → e.EndTime ≤ c.StartTime := by
  simp [appointmentsOverlap]

/-- Method `Schedule` in the list model, as one case analysis. -/
theorem Schedule_list (now : Time) (appt : Appointment F) (w : Store F) :
    Schedule apptSvc now appt w =
      if appt.StartTime < now then
        ((some (Error.New "la cita debe ser en el pasado"), appt), w)
      else if appt.EndTime ≤ appt.StartTime then
        ((some (Error.New "la hora de fin debe ser posterior a la de inicio"), appt), w)
      else if w.appts.any (fun existing => appointmentsOverlap appt existing) then
        ((some (Error.New "el turno se solapa con otro existente"), appt),
          w.record Call.apptList)
      else if (resolveProducts listProdRepo appt.Products (w.record Call.apptList)).1.1 = none
      then
        ((none, { scheduleArg appt w with ID := freshID (w.appts.map (fun r => r.ID)) }),
          { appts := w.appts ++
              [{ scheduleArg appt w with ID := freshID (w.appts.map (fun r => r.ID)) }]
            prods := w.prods
            calls := w.calls ++ [Call.apptList] ++
              appt.Products.map (fun p => Call.prodGetById p.ID) ++
              [Call.apptCreate (scheduleArg appt w)] })
      else
        ((some (Error.New "el producto no existe"), scheduleArg appt w),
          (resolveProducts listProdRepo appt.Products (w.record Call.apptList)).2) := by
  unfold Schedule
  by_cases h1 : appt.StartTime < now
  · simp [h1]
  by_cases h2 : appt.EndTime ≤ appt.StartTime
  · simp [h1, h2]
  simp only [h1, h2, if_false, gt_iff_lt, not_lt, apptSvc, listApptRepo]
  by_cases h3 : w.appts.any (fun existing => appointmentsOverlap appt existing) = true
  · simp only [h3, if_true]
  simp only [h3]
  have ha := resolveProducts_appts appt.Products (w.record Call.apptList)
  have hp := resolveProducts_prods appt.Products (w.record Call.apptList)
  cases h4 : (resolveProducts listProdRepo appt.Products (w.record Call.apptList)).1.1 with
  | none =>
    have hc := resolveProducts_calls appt.Products (w.record Call.apptList) h4
    generalize hr : resolveProducts listProdRepo appt.Products (w.record Call.apptList) = r
      at ha hp hc h4
    obtain ⟨⟨e, qs⟩, w2⟩ := r
    simp only at h4 ha hp hc
    subst h4
    simp only [scheduleArg, hr]
    simp [Store.record, ha, hp, hc]
  | some e =>
    have he := resolveProducts_error _ _ _ h4
    subst he
    generalize hr : resolveProducts listProdRepo appt.Products (w.record Call.apptList) = r
      at ha hp h4
    obtain ⟨⟨e, qs⟩, w2⟩ := r
    simp only at h4
    subst h4
    simp [scheduleArg, hr]

theorem find_ID {α : Type} (key : α → Nat) (l : List α) (id : Nat) (x : α)
    (h : l.find? (fun r => decide (key r = id)) = some x) : key x = id ∧ x ∈ l := by
  have h1 := List.find?_some h
  simp only [decide_eq_true_eq] at h1
  exact ⟨h1, List.mem_of_find?_eq_some h⟩

theorem find_none_ID {α : Type} (key : α → Nat) (l : List α) (id : Nat) :
    l.find? (fun r => decide (key r = id)) = none ↔ ∀ x ∈ l, key x ≠ id := by
  simp [List.find?_eq_none]

/-- With distinct identifiers, looking up the identifier of a stored record finds it. -/
theorem find_of_mem {α : Type} (key : α → Nat) (l : List α) (x : α) (hx : x ∈ l)
    (hu : (l.map key).Nodup) : l.find? (fun r => decide (key r = key x)) = some x := by
  induction l with
  | nil => simp at hx
  | cons a t ih =>
    simp only [List.map_cons, List.nodup_cons, List.mem_map, not_exists, not_and] at hu
    simp only [List.mem_cons] at hx
    rcases hx with rfl | hx
    · simp
    · have hne : key a ≠ key x := fun h => hu.1 x hx h.symm
      simp only [List.find?_cons, hne, decide_False]
      exact ih hx hu.2

/-- Method `Update` in the list model when no appointment is stored under `id`. -/
theorem Update_list_absent (now : Time) (id : Nat) (upd : Appointment F) (w : Store F)
    (h : w.appts.find? (fun r => decide (r.ID = id)) = none) :
    Update apptSvc now id upd w =
      ((some Error.ErrNotFound, upd), w.record (Call.apptGetById id)) := by
  simp only [Update, apptSvc, listApptRepo, h]

/-- Method `Update` in the list model when an appointment is stored under `id`, as one case
analysis. -/
theorem Update_list_present (now : Time) (id : Nat) (upd existing : Appointment F)
    (w : Store F) (h : w.appts.find? (fun r => decide (r.ID = id)) = some existing) :
    Update apptSvc now id upd w =
      if upd.StartTime < now then
        ((some (Error.New "la cita no puede ser en el pasado"), { upd with ID := id }),
          w.record (Call.apptGetById id))
      else if upd.EndTime ≤ upd.StartTime then
        ((some (Error.New "la hora de fin debe ser posterior a la de inicio"),
          { upd with ID := id }), w.record (Call.apptGetById id))
      else if w.appts.any (fun e => decide (e.ID ≠ id) && appointmentsOverlap upd e) then
        ((some (Error.New "el turno se solapa con otro existente"), { upd with ID := id }),
          (w.record (Call.apptGetById id)).record Call.apptList)
      else if (resolveProducts listProdRepo upd.Products
          ((w.record (Call.apptGetById id)).record Call.apptList)).1.1 = none
      then
        ((none, updateArg id upd w),
          { appts := w.appts.map (fun r => if r.ID = id then updateArg id upd w else r)
            prods := w.prods
            calls := w.calls ++ [Call.apptGetById id, Call.apptList] ++
              upd.Products.map (fun p => Call.prodGetById p.ID) ++
              [Call.apptUpdate (updateArg id upd w)] })
      else
        ((some (Error.New "el producto no existe"), updateArg id upd w),
          (resolveProducts listProdRepo upd.Products
            ((w.record (Call.apptGetById id)).record Call.apptList)).2) := by
  have hid : existing.ID = id := (find_ID (fun r : Appointment F => r.ID) _ _ _ h).1
  simp only [Update, apptSvc, listApptRepo, h, hid]
  by_cases h1 : upd.StartTime < now
  · simp [h1]
  by_cases h2 : upd.EndTime ≤ upd.StartTime
  · simp [h1, h2]
  simp only [h1, h2, if_false, gt_iff_lt, not_lt]
  have hscan : ((w.record (Call.apptGetById id)).appts.any (fun existing =>
        decide (existing.ID ≠ id) &&
          appointmentsOverlap { upd with ID := id } existing)) =
      (w.appts.any (fun e => decide (e.ID ≠ id) && appointmentsOverlap upd e)) := rfl
  rw [hscan]
  by_cases h3 : w.appts.any (fun e => decide (e.ID ≠ id) && appointmentsOverlap upd e) = true
  · simp only [h3, if_true]
  simp only [h3]
  have ha := resolveProducts_appts upd.Products
    ((w.record (Call.apptGetById id)).record Call.apptList)
  have hp := resolveProducts_prods upd.Products
    ((w.record (Call.apptGetById id)).record Call.apptList)
  cases h4 : (resolveProducts listProdRepo upd.Products
      ((w.record (Call.apptGetById id)).record Call.apptList)).1.1 with
  | none =>
    have hc := resolveProducts_calls upd.Products _ h4
    generalize hr : resolveProducts listProdRepo upd.Products
      ((w.record (Call.apptGetById id)).record Call.apptList) = r at ha hp hc h4
    obtain ⟨⟨e, qs⟩, w2⟩ := r
    simp only at h4 ha hp hc
    subst h4
    simp only [updateArg, hr]
    simp [Store.record, ha, hp, hc]
  | some e =>
    have he := resolveProducts_error _ _ _ h4
    subst he
    generalize hr : resolveProducts listProdRepo upd.Products
      ((w.record (Call.apptGetById id)).record Call.apptList) = r at ha hp h4
    obtain ⟨⟨e, qs⟩, w2⟩ := r
    simp only at h4
    subst h4
    simp [updateArg, hr]

/-- Replacing the record stored under `id` by one with the same identifier keeps the
identifiers as they are. -/
theorem map_replace_IDs (id : Nat) (u : Appointment F) (hu : u.ID = id)
    (l : List (Appointment F)) :
    (l.map (fun r => if r.ID = id then u else r)).map (fun r => r.ID) =
      l.map (fun r => r.ID) := by
  induction l with
  | nil => rfl
  | cons a t ih =>
    simp only [List.map_cons, ih, List.cons.injEq, and_true]
    by_cases h : a.ID = id
    · simp [h, hu]
    · simp [h]

theorem NoOverlap_append (l : List (Appointment F)) (c : Appointment F)
    (hn : NoOverlap l) (hc : ∀ e ∈ l, e.EndTime ≤ c.StartTime) : NoOverlap (l ++ [c]) := by
  unfold NoOverlap at hn ⊢
  rw [List.pairwise_append]
  refine ⟨hn, List.pairwise_singleton _ _, ?_⟩
  intro e he b hb
  simp only [List.mem_singleton] at hb
  subst hb
  intro hov
  have := hc e he
  exact absurd hov.2 (not_lt.mpr this)

theorem NoOverlap_replace (l : List (Appointment F)) (id : Nat) (u : Appointment F)
    (hn : NoOverlap l) (hids : UniqueApptIDs l)
    (hc : ∀ e ∈ l, e.ID ≠ id → e.EndTime ≤ u.StartTime) :
    NoOverlap (l.map (fun r => if r.ID = id then u else r)) := by
  unfold NoOverlap UniqueApptIDs at *
  induction l with
  | nil => simp
  | cons a t ih =>
    simp only [List.map_cons, List.nodup_cons, List.mem_map, not_exists, not_and] at hids
    simp only [List.pairwise_cons] at hn
    simp only [List.map_cons, List.pairwise_cons, List.mem_map, forall_exists_index, and_imp]
    refine ⟨?_, ih hn.2 hids.2 (fun e he => hc e (List.mem_cons_of_mem _ he))⟩
    intro b b1 hb1 hb
    have hne : b1.ID ≠ a.ID := fun h => hids.1 b1 hb1 h
    by_cases ha : a.ID = id
    · have hb1id : b1.ID ≠ id := fun h => hne (h.trans ha.symm)
      simp only [hb1id, if_false] at hb
      subst hb
      simp only [ha, if_true]
      intro hov
      exact absurd hov.1 (not_lt.mpr (hc b1 (List.mem_cons_of_mem _ hb1) hb1id))
    · simp only [ha, if_false]
      by_cases hb1id : b1.ID = id
      · simp only [hb1id, if_true] at hb
        subst hb
        intro hov
        exact absurd hov.2 (not_lt.mpr (hc a (List.mem_cons_self _ _) ha))
      · simp only [hb1id, if_false] at hb
        subst hb
        exact hn.1 b1 hb1

/-- The appointment lookup of the list model finds a stored record by its identifier
when identifiers are distinct. -/
theorem GetById_of_mem (w : Store F) (a : Appointment F) (ha : a ∈ w.appts)
    (hids : UniqueApptIDs w.appts) :
    (listApptRepo : AppointmentRepo F (Store F)).GetById a.ID w =
      (Except.ok a, w.record (Call.apptGetById a.ID)) := by
  have h := find_of_mem (fun r : Appointment F => r.ID) w.appts a ha hids
  simp only [listApptRepo, h]

/-- The product lookup of the list model returns the first catalog record stored under
the identifier. -/
theorem prod_GetById_found (w : Store F) (id : Nat) (q : Product F)
    (h : w.prods.find? (fun r => decide (r.ID = id)) = some q) :
    ((listProdRepo : ProductRepo F (Store F)).GetById id w).1 = Except.ok q := by
  simp only [listProdRepo, h]

theorem forall2_lookup (w : Store F) (ps qs : List (Product F))
    (h : List.Forall₂ (fun p q => w.prods.find? (fun r => decide (r.ID = p.ID)) = some q)
      ps qs) :
    List.Forall₂ (fun p q =>
      ((listProdRepo : ProductRepo F (Store F)).GetById p.ID w).1 = Except.ok q) ps qs := by
  induction h with
  | nil => exact List.Forall₂.nil
  | cons hpq _ ih => exact List.Forall₂.cons (prod_GetById_found w _ _ hpq) ih

/-- Replacing the record stored under `id` keeps a symmetric pairwise property when the
new record is related to every record stored under another identifier. -/
theorem pairwise_replace {α : Type} (key : α → Nat) (R : α → α → Prop) (l : List α)
    (id : Nat) (u : α) (hR : l.Pairwise R) (hids : (l.map key).Nodup)
    (hc : ∀ e ∈ l, key e ≠ id → R e u ∧ R u e) :
    (l.map (fun r => if key r = id then u else r)).Pairwise R := by
  induction l with
  | nil => simp
  | cons a t ih =>
    simp only [List.map_cons, List.nodup_cons, List.mem_map, not_exists, not_and] at hids
    simp only [List.pairwise_cons] at hR
    simp only [List.map_cons, List.pairwise_cons, List.mem_map, forall_exists_index, and_imp]
    refine ⟨?_, ih hR.2 hids.2 (fun e he => hc e (List.mem_cons_of_mem _ he))⟩
    intro b b1 hb1 hb
    have hne : key b1 ≠ key a := fun h => hids.1 b1 hb1 h
    by_cases ha : key a = id
    · have hb1id : key b1 ≠ id := fun h => hne (h.trans ha.symm)
      simp only [hb1id, if_false] at hb
      subst hb
      simp only [ha, if_true]
      exact (hc b1 (List.mem_cons_of_mem _ hb1) hb1id).2
    · simp only [ha, if_false]
      by_cases hb1id : key b1 = id
      · simp only [hb1id, if_true] at hb
        subst hb
        exact (hc a (List.mem_cons_self _ _) ha).1
      · simp only [hb1id, if_false] at hb
        subst hb
        exact hR.1 b1 hb1

theorem prod_map_replace_IDs (id : Nat) (u : Product F) (hu : u.ID = id)
    (l : List (Product F)) :
    (l.map (fun r => if r.ID = id then u else r)).map (fun r => r.ID) =
      l.map (fun r => r.ID) := by
  induction l with
  | nil => rfl
  | cons a t ih =>
    simp only [List.map_cons, ih, List.cons.injEq, and_true]
    by_cases h : a.ID = id
    · simp [h, hu]
    · simp [h]

theorem UniqueNames_iff (l : List (Product F)) :
    UniqueNames l ↔ l.Pairwise (fun a b => a.Name ≠ b.Name) := by
  unfold UniqueNames List.Nodup
  rw [List.pairwise_map]

/-- Method `ProductService.Create` in the list model, as one case analysis. -/
theorem Create_list [Float64Ops F] (p : Product F) (w : Store F) :
    ProductService.Create prodSvc p w =
      if p.Name = "" then
        ((some (Error.New "el nombre del producto no puede estar vació"), p), w)
      else if Float64Ops.le p.Price Float64Ops.zero = true then
        ((some (Error.New "el precio del producto debe ser mayor a 0"), p), w)
      else if w.prods.any (fun e => decide (e.Name = p.Name)) then
        ((some (Error.New "ya existe un producto con ese nombre"), p), w.record Call.prodList)
      else
        ((none, { p with ID := freshID (w.prods.map (fun r => r.ID)) }),
          { appts := w.appts
            prods := w.prods ++ [{ p with ID := freshID (w.prods.map (fun r => r.ID)) }]
            calls := w.calls ++ [Call.prodList, Call.prodCreate p] }) := by
  simp only [ProductService.Create, prodSvc, listProdRepo]
  split_ifs <;> simp [Store.record]

/-- Method `ProductService.Update` in the list model, as one case analysis. -/
theorem ProductUpdate_list [Float64Ops F] (id : Nat) (p : Product F) (w : Store F) :
    ProductService.Update prodSvc id p w =
      if p.Name = "" then
        ((some (Error.New "el nombre del producto no puede estar vació"), p), w)
      else if Float64Ops.le p.Price Float64Ops.zero = true then
        ((some (Error.New "el precio del producto debe ser mayor a 0"), p), w)
      else if (w.prods.find? (fun r => decide (r.ID = id))).isNone then
        ((some Error.ErrNotFound, p), w.record (Call.prodGetById id))
      else if w.prods.any (fun e => decide (e.Name = p.Name) && decide (e.ID ≠ id)) then
        ((some (Error.New "ya existe un producto con ese nombre"), p),
          (w.record (Call.prodGetById id)).record Call.prodList)
      else
        ((none, { p with ID := id }),
          { appts := w.appts
            prods := w.prods.map (fun r => if r.ID = id then { p with ID := id } else r)
            calls := w.calls ++
              [Call.prodGetById id, Call.prodList, Call.prodUpdate { p with ID := id }] }) := by
  simp only [ProductService.Update, prodSvc, listProdRepo]
  by_cases h1 : p.Name = ""
  · simp [h1]
  by_cases h2 : Float64Ops.le p.Price Float64Ops.zero = true
  · simp [h1, h2]
  simp only [h1, h2, if_false]
  cases hf : w.prods.find? (fun r => decide (r.ID = id)) with
  | none => simp
  | some existing =>
    have hid : existing.ID = id := (find_ID (fun r : Product F => r.ID) _ _ _ hf).1
    simp only [hid, Store.record, Option.isNone_some]
    by_cases h3 :
        w.prods.any (fun e => decide (e.Name = p.Name) && decide (e.ID ≠ id)) = true
    · simp [h3]
    · simp [h3]

/-- Method `ProductService.Delete` in the list model, as one case analysis. -/
theorem ProductDelete_list (id : Nat) (w : Store F) :
    ProductService.Delete prodSvc id w =
      if (w.prods.find? (fun r => decide (r.ID = id))).isNone then
        (some Error.ErrNotFound, w.record (Call.prodGetById id))
      else
        (none,
          { appts := w.appts
            prods := w.prods.filter (fun r => decide (r.ID ≠ id))
            calls := w.calls ++ [Call.prodGetById id, Call.prodDelete id] }) := by
  simp only [ProductService.Delete, prodSvc, listProdRepo]
  cases hf : w.prods.find? (fun r => decide (r.ID = id)) with
  | none => simp
  | some existing => simp [Store.record]

/-- A lookup by identifier finds something when a record is stored under it. -/
theorem find_isNone_of_mem {α : Type} (key : α → Nat) (l : List α) (id : Nat)
    (h : ∃ e ∈ l, key e = id) : (l.find? (fun r => decide (key r = id))).isNone = false := by
  obtain ⟨e, he, hid⟩ := h
  cases hf : l.find? (fun r => decide (key r = id)) with
  | none => exact absurd hid ((find_none_ID key l id).mp hf e he)
  | some x => rfl

/-- The conflict scan of `ProductService.Update`. -/
theorem nameScan_iff (id : Nat) (p : Product F) (l : List (Product F)) :
    l.any (fun e => decide (e.Name = p.Name) && decide (e.ID ≠ id)) = true ↔
      ∃ e ∈ l, e.ID ≠ id ∧ e.Name = p.Name := by
  simp only [List.any_eq_true, Bool.and_eq_true, decide_eq_true_eq]
  constructor
  · rintro ⟨e, he, hn, hi⟩
    exact ⟨e, he, hi, hn⟩
  · rintro ⟨e, he, hi, hn⟩
    exact ⟨e, he, hn, hi⟩

/-- Replacing the record stored under `id` by one with the same identifier leaves the
records stored under other identifiers as they are. -/
theorem filter_map_replace (id : Nat) (u : Appointment F) (hu : u.ID = id)
    (l : List (Appointment F)) :
    (l.map (fun r => if r.ID = id then u else r)).filter (fun r => decide (r.ID ≠ id)) =
      l.filter (fun r => decide (r.ID ≠ id)) := by
  induction l with
  | nil => rfl
  | cons a t ih =>
    simp only [ne_eq, decide_not] at ih
    by_cases h : a.ID = id
    · simp [List.filter_cons, h, hu, ih]
    · simp [List.filter_cons, h, ih]

/-- The appointment lookup of the list model fails with the not-found sentinel when no
record is stored under the identifier. -/
theorem GetById_absent (w : Store F) (id : Nat) (h : ∀ e ∈ w.appts, e.ID ≠ id) :
    (listApptRepo : AppointmentRepo F (Store F)).GetById id w =
      (Except.error Error.ErrNotFound, w.record (Call.apptGetById id)) := by
  have hf := (find_none_ID (fun r : Appointment F => r.ID) w.appts id).mpr h
  simp only [listApptRepo, hf]

end ListFacts

section Claims

variable {F : Type}

/-- C1: the no-overlap invariant. In the list model with pairwise distinct identifiers, if
no two stored appointments satisfy the symmetric overlap predicate, then after a
successful `Schedule` (which appends the candidate, with its own start and end time) and
after a successful `Update` (which replaces the record stored under the given identifier)
still no two stored appointments satisfy it, and the identifiers are still distinct. -/
theorem no_overlap_invariant (now : Time) (w : Store F)
    (hids : UniqueApptIDs w.appts) (hn : NoOverlap w.appts) :
    (∀ appt : Appointment F, (Schedule apptSvc now appt w).1.1 = none →
      (∃ stored : Appointment F,
        stored.StartTime = appt.StartTime ∧ stored.EndTime = appt.EndTime ∧
        (Schedule apptSvc now appt w).2.appts = w.appts ++ [stored]) ∧
      NoOverlap (Schedule apptSvc now appt w).2.appts ∧
      UniqueApptIDs (Schedule apptSvc now appt w).2.appts) ∧
    (∀ (id : Nat) (upd : Appointment F), (Update apptSvc now id upd w).1.1 = none →
      (∃ stored : Appointment F,
        stored.ID = id ∧ stored.StartTime = upd.StartTime ∧ stored.EndTime = upd.EndTime ∧
        (Update apptSvc now id upd w).2.appts =
          w.appts.map (fun r => if r.ID = id then stored else r)) ∧
      NoOverlap (Update apptSvc now id upd w).2.appts ∧
      UniqueApptIDs (Update apptSvc now id upd w).2.appts) := by
  constructor
  · intro appt hok
    rw [Schedule_list] at hok ⊢
    split_ifs at hok ⊢ with h1 h2 h3 h4
    have hscan := (scan_false_iff appt w.appts).mp (by simpa using h3)
    refine ⟨⟨{ scheduleArg appt w with ID := freshID (w.appts.map (fun r => r.ID)) },
      rfl, rfl, rfl⟩, NoOverlap_append _ _ hn hscan, ?_⟩
    unfold UniqueApptIDs at hids ⊢
    simp only [List.map_append, List.map_cons, List.map_nil]
    rw [List.nodup_append]
    refine ⟨hids, List.nodup_singleton _, ?_⟩
    rw [List.disjoint_singleton]
    exact freshID_not_mem _
  · intro id upd hok
    cases hf : w.appts.find? (fun r => decide (r.ID = id)) with
    | none =>
      rw [Update_list_absent now id upd w hf] at hok
      simp at hok
    | some existing =>
      rw [Update_list_present now id upd existing w hf] at hok ⊢
      split_ifs at hok ⊢ with h1 h2 h3 h4
      have hscan := (scanExcept_false_iff id upd w.appts).mp (by simpa using h3)
      refine ⟨⟨updateArg id upd w, rfl, rfl, rfl, rfl⟩,
        NoOverlap_replace _ id _ hn hids hscan, ?_⟩
      unfold UniqueApptIDs at hids ⊢
      rw [map_replace_IDs id (updateArg id upd w) rfl]
      exact hids

/-- C1 at a concrete store: booking 10:30 to 11:00 next to the stored 10:00 to 10:30. -/
theorem no_overlap_invariant_witness :
    NoOverlap (Schedule apptSvc 0 (slot 0 "Bea" (hm 10 30) (hm 11 0)) store1).2.appts :=
  (((no_overlap_invariant 0 store1 (by unfold UniqueApptIDs; decide)
    (by unfold NoOverlap; decide)).1
      (slot 0 "Bea" (hm 10 30) (hm 11 0)) (by decide)).2).1

/-- C2, evaluated on the code: the store holds 10:00 to 10:30 (id 1) and 11:00 to 11:30
(id 2), which do not overlap; updating appointment 1 to its own interval, changing only the
client name, at a time before its start, is rejected with the overlap error. -/
theorem update_same_interval_rejected :
    NoOverlap store2.appts ∧ UniqueApptIDs store2.appts ∧
    slot 1 "Ana" (hm 10 0) (hm 10 30) ∈ store2.appts ∧
    hm 9 0 ≤ hm 10 0 ∧ hm 10 0 < hm 10 30 ∧
    (Update apptSvc (hm 9 0) 1 (slot 1 "Ana Maria" (hm 10 0) (hm 10 30)) store2).1.1 =
      some (Error.New "el turno se solapa con otro existente") ∧
    (Update apptSvc (hm 9 0) 1 (slot 1 "Ana Maria" (hm 10 0) (hm 10 30)) store2).2.appts =
      store2.appts := by
  refine ⟨by unfold NoOverlap; decide, by unfold UniqueApptIDs; decide, by decide, by decide,
    by decide, by decide, by decide⟩

/-- C3, evaluated on the code: the store holds 10:00 to 10:30; a candidate 09:00 to 09:30,
which ends before the stored appointment starts and overlaps nothing under the symmetric
predicate, is rejected with the overlap error and not stored. -/
theorem schedule_earlier_slot_rejected :
    (∀ e ∈ store1.appts, ¬ overlapSym (slot 0 "Bea" (hm 9 0) (hm 9 30)) e) ∧
    hm 8 0 ≤ hm 9 0 ∧ hm 9 0 < hm 9 30 ∧
    (Schedule apptSvc (hm 8 0) (slot 0 "Bea" (hm 9 0) (hm 9 30)) store1).1.1 =
      some (Error.New "el turno se solapa con otro existente") ∧
    (Schedule apptSvc (hm 8 0) (slot 0 "Bea" (hm 9 0) (hm 9 30)) store1).2.appts =
      store1.appts := by
  refine ⟨by decide, by decide, by decide, by decide, by decide⟩

/-- C4: a candidate with valid times that overlaps some stored appointment under the
symmetric predicate is rejected by `Schedule` with the overlap error; the stored
appointments and products are unchanged and the only repository call made is `List` (so
`Create` is never called). -/
theorem schedule_overlap_rejected (now : Time) (appt e : Appointment F) (w : Store F)
    (hnow : now ≤ appt.StartTime) (hend : appt.StartTime < appt.EndTime)
    (he : e ∈ w.appts) (hov : overlapSym appt e) :
    (Schedule apptSvc now appt w).1.1 =
        some (Error.New "el turno se solapa con otro existente") ∧
      (Schedule apptSvc now appt w).2.appts = w.appts ∧
      (Schedule apptSvc now appt w).2.prods = w.prods ∧
      (Schedule apptSvc now appt w).2.calls = w.calls ++ [Call.apptList] := by
  have h3 : w.appts.any (fun existing => appointmentsOverlap appt existing) = true := by
    rw [List.any_eq_true]
    exact ⟨e, he, by simp [appointmentsOverlap, hov.1]⟩
  rw [Schedule_list]
  rw [if_neg (not_lt.mpr hnow), if_neg (not_le.mpr hend), if_pos h3]
  exact ⟨rfl, rfl, rfl, rfl⟩

/-- C4 at the scenario of the spec: stored 10:00 to 10:30, candidate 10:15 to 10:45. -/
theorem schedule_overlap_rejected_witness :
    (Schedule apptSvc (hm 8 0) (slot 0 "Bea" (hm 10 15) (hm 10 45)) store1).1.1 =
        some (Error.New "el turno se solapa con otro existente") ∧
      (Schedule apptSvc (hm 8 0) (slot 0 "Bea" (hm 10 15) (hm 10 45)) store1).2.appts =
        store1.appts ∧
      (Schedule apptSvc (hm 8 0) (slot 0 "Bea" (hm 10 15) (hm 10 45)) store1).2.prods =
        store1.prods ∧
      (Schedule apptSvc (hm 8 0) (slot 0 "Bea" (hm 10 15) (hm 10 45)) store1).2.calls =
        store1.calls ++ [Call.apptList] :=
  schedule_overlap_rejected (hm 8 0) (slot 0 "Bea" (hm 10 15) (hm 10 45))
    (slot 1 "Ana" (hm 10 0) (hm 10 30)) store1 (by decide) (by decide) (by decide) (by decide)

/-- C5: a candidate whose start is before now, or whose end is not after its start, makes
`Schedule` return an error and leave the persistence state as it was; `Update` with such a
payload, for an existing identifier as for any other, returns an error and leaves the
stored appointments and products as they were. -/
theorem invalid_times_rejected (now : Time) (appt : Appointment F) (w : Store F)
    (hbad : appt.StartTime < now ∨ appt.EndTime ≤ appt.StartTime) :
    ((Schedule apptSvc now appt w).1.1 ≠ none ∧ (Schedule apptSvc now appt w).2 = w) ∧
    (∀ id : Nat, (Update apptSvc now id appt w).1.1 ≠ none ∧
      (Update apptSvc now id appt w).2.appts = w.appts ∧
      (Update apptSvc now id appt w).2.prods = w.prods) := by
  constructor
  · rw [Schedule_list]
    by_cases h1 : appt.StartTime < now
    · simp [h1]
    · have h2 : appt.EndTime ≤ appt.StartTime := hbad.resolve_left h1
      simp [h1, h2]
  · intro id
    cases hf : w.appts.find? (fun r => decide (r.ID = id)) with
    | none =>
      rw [Update_list_absent now id appt w hf]
      simp [Store.record]
    | some existing =>
      rw [Update_list_present now id appt existing w hf]
      by_cases h1 : appt.StartTime < now
      · simp [h1, Store.record]
      · have h2 : appt.EndTime ≤ appt.StartTime := hbad.resolve_left h1
        simp [h1, h2, Store.record]

/-- C5 at a concrete input: a zero-length slot far in the future, scheduled and used as
the payload of an update of the stored appointment 1. -/
theorem invalid_times_rejected_witness :
    ((Schedule apptSvc 0 (slot 0 "Bea" (hm 900 0) (hm 900 0)) store1).1.1 ≠ none ∧
      (Schedule apptSvc 0 (slot 0 "Bea" (hm 900 0) (hm 900 0)) store1).2 = store1) ∧
    ((Update apptSvc 0 1 (slot 0 "Bea" (hm 900 0) (hm 900 0)) store1).1.1 ≠ none ∧
      (Update apptSvc 0 1 (slot 0 "Bea" (hm 900 0) (hm 900 0)) store1).2.appts =
        store1.appts ∧
      (Update apptSvc 0 1 (slot 0 "Bea" (hm 900 0) (hm 900 0)) store1).2.prods =
        store1.prods) :=
  ⟨(invalid_times_rejected 0 (slot 0 "Bea" (hm 900 0) (hm 900 0)) store1
      (Or.inr (by decide))).1,
   (invalid_times_rejected 0 (slot 0 "Bea" (hm 900 0) (hm 900 0)) store1
      (Or.inr (by decide))).2 1⟩

/-- C6: for a stored appointment (identifiers distinct), `GetTotalPrice` of its identifier
returns no error and the prices of its embedded products added from left to right starting
from zero; that total is zero when it has no products. -/
theorem total_price_is_sum [Float64Ops F] (w : Store F) (a : Appointment F)
    (ha : a ∈ w.appts) (hids : UniqueApptIDs w.appts) :
    (GetTotalPrice apptSvc a.ID w).1 =
        (a.Products.foldl (fun total prod => Float64Ops.add total prod.Price) Float64Ops.zero,
          none) ∧
      (a.Products = [] → (GetTotalPrice apptSvc a.ID w).1 = (Float64Ops.zero, none)) := by
  have h : (GetTotalPrice apptSvc a.ID w).1 =
      (a.Products.foldl (fun total prod => Float64Ops.add total prod.Price) Float64Ops.zero,
        none) := by
    simp only [GetTotalPrice, apptSvc, GetById_of_mem w a ha hids]
  refine ⟨h, ?_⟩
  intro hnil
  rw [h, hnil]
  rfl

/-- C6 at a concrete store: an appointment with products priced 20 and 15 totals 35. -/
theorem total_price_is_sum_witness :
    (GetTotalPrice apptSvc 7
      (⟨[⟨7, "Ana", hm 10 0, hm 10 30,
          [⟨1, "Haircut", 20, "", 0, 0⟩, ⟨2, "Shave", 15, "", 0, 0⟩], 0, 0⟩], [], []⟩ :
        Store Int)).1 = (35, none) :=
  (total_price_is_sum
    (⟨[⟨7, "Ana", hm 10 0, hm 10 30,
        [⟨1, "Haircut", 20, "", 0, 0⟩, ⟨2, "Shave", 15, "", 0, 0⟩], 0, 0⟩], [], []⟩ :
      Store Int)
    ⟨7, "Ana", hm 10 0, hm 10 30,
      [⟨1, "Haircut", 20, "", 0, 0⟩, ⟨2, "Shave", 15, "", 0, 0⟩], 0, 0⟩
    (by decide) (by unfold UniqueApptIDs; decide)).1

/-- C7: product resolution. When `Schedule` succeeds, its last repository call is `Create`
on a record whose product list has the length of the candidate list and whose k-th entry is
the full catalog product the lookup returns for the k-th referenced identifier; the record
left to the caller carries the same list. The same holds for `Update` and the record it
hands to the repository `Update`. Both do succeed, and so do resolve the products, when the
times are valid, the candidate starts at or after the end of every stored appointment (for
`Update`: of those stored under other identifiers, a record being stored under `id`) and
every referenced identifier is in the catalog. -/
theorem products_resolved (now : Time) (w : Store F) :
    (∀ appt : Appointment F, (Schedule apptSvc now appt w).1.1 = none →
      ∃ handed : Appointment F,
        (Schedule apptSvc now appt w).2.calls.getLast? = some (Call.apptCreate handed) ∧
        (Schedule apptSvc now appt w).1.2.Products = handed.Products ∧
        handed.Products.length = appt.Products.length ∧
        List.Forall₂ (fun p q => (listProdRepo.GetById p.ID w).1 = Except.ok q)
          appt.Products handed.Products) ∧
    (∀ (id : Nat) (upd : Appointment F), (Update apptSvc now id upd w).1.1 = none →
      ∃ handed : Appointment F,
        (Update apptSvc now id upd w).2.calls.getLast? = some (Call.apptUpdate handed) ∧
        (Update apptSvc now id upd w).1.2.Products = handed.Products ∧
        handed.Products.length = upd.Products.length ∧
        List.Forall₂ (fun p q => (listProdRepo.GetById p.ID w).1 = Except.ok q)
          upd.Products handed.Products) ∧
    (∀ appt : Appointment F, now ≤ appt.StartTime → appt.StartTime < appt.EndTime →
      (∀ e ∈ w.appts, e.EndTime ≤ appt.StartTime) →
      (∀ p ∈ appt.Products, ∃ q ∈ w.prods, q.ID = p.ID) →
      (Schedule apptSvc now appt w).1.1 = none) ∧
    (∀ (id : Nat) (upd : Appointment F), (∃ x ∈ w.appts, x.ID = id) →
      now ≤ upd.StartTime → upd.StartTime < upd.EndTime →
      (∀ e ∈ w.appts, e.ID ≠ id → e.EndTime ≤ upd.StartTime) →
      (∀ p ∈ upd.Products, ∃ q ∈ w.prods, q.ID = p.ID) →
      (Update apptSvc now id upd w).1.1 = none) := by
  refine ⟨?_, ?_, ?_, ?_⟩
  · intro appt hok
    rw [Schedule_list] at hok ⊢
    split_ifs at hok ⊢ with h1 h2 h3 h4
    have hf := forall2_lookup w _ _
      (resolveProducts_forall2 appt.Products (w.record Call.apptList) h4)
    exact ⟨scheduleArg appt w, List.getLast?_concat _, rfl, hf.length_eq.symm, hf⟩
  rotate_left
  · intro appt hnow hend hfree hprods
    have h3 : ¬ (w.appts.any (fun existing => appointmentsOverlap appt existing) = true) := by
      rw [Bool.not_eq_true]
      exact (scan_false_iff appt w.appts).mpr hfree
    have h4 : (resolveProducts listProdRepo appt.Products (w.record Call.apptList)).1.1 =
        none := (resolveProducts_none_iff _ _).mpr hprods
    rw [Schedule_list, if_neg (not_lt.mpr hnow), if_neg (not_le.mpr hend), if_neg h3,
      if_pos h4]
  · intro id upd hex hnow hend hfree hprods
    cases hf : w.appts.find? (fun r => decide (r.ID = id)) with
    | none =>
      obtain ⟨x, hx, hxid⟩ := hex
      exact absurd hxid ((find_none_ID (fun r : Appointment F => r.ID) _ _).mp hf x hx)
    | some existing =>
      have h3 : ¬ (w.appts.any
          (fun e => decide (e.ID ≠ id) && appointmentsOverlap upd e) = true) := by
        rw [Bool.not_eq_true]
        exact (scanExcept_false_iff id upd w.appts).mpr hfree
      have h4 : (resolveProducts listProdRepo upd.Products
          ((w.record (Call.apptGetById id)).record Call.apptList)).1.1 = none :=
        (resolveProducts_none_iff _ _).mpr hprods
      rw [Update_list_present now id upd existing w hf, if_neg (not_lt.mpr hnow),
        if_neg (not_le.mpr hend), if_neg h3, if_pos h4]
  · intro id upd hok
    cases hf : w.appts.find? (fun r => decide (r.ID = id)) with
    | none =>
      rw [Update_list_absent now id upd w hf] at hok
      simp at hok
    | some existing =>
      rw [Update_list_present now id upd existing w hf] at hok ⊢
      split_ifs at hok ⊢ with h1 h2 h3 h4
      have hl := forall2_lookup w _ _ (resolveProducts_forall2 upd.Products
        ((w.record (Call.apptGetById id)).record Call.apptList) h4)
      exact ⟨updateArg id upd w, List.getLast?_concat _, rfl, hl.length_eq.symm, hl⟩

/-- C7 at concrete inputs. A candidate referencing product 1 twice is scheduled and the
record handed to `Create` carries two full copies of the catalog record; an update of the
stored appointment 2 referencing product 1 succeeds and the record handed to the repository
`Update` carries the full catalog record. -/
theorem products_resolved_witness :
    (∃ handed : Appointment Int,
      (Schedule apptSvc 0 { slot 0 "Bea" (hm 10 30) (hm 11 0) with
        Products := [ref 1, ref 1] } store1).2.calls.getLast? =
          some (Call.apptCreate handed) ∧
      (Schedule apptSvc 0 { slot 0 "Bea" (hm 10 30) (hm 11 0) with
        Products := [ref 1, ref 1] } store1).1.2.Products = handed.Products ∧
      handed.Products.length = 2 ∧
      List.Forall₂ (fun p q => (listProdRepo.GetById p.ID store1).1 = Except.ok q)
        [ref 1, ref 1] handed.Products) ∧
    (∃ handed : Appointment Int,
      (Update apptSvc (hm 9 0) 2 { slot 9 "Luis" (hm 11 30) (hm 12 0) with
        Products := [ref 1] } store2).2.calls.getLast? =
          some (Call.apptUpdate handed) ∧
      (Update apptSvc (hm 9 0) 2 { slot 9 "Luis" (hm 11 30) (hm 12 0) with
        Products := [ref 1] } store2).1.2.Products = handed.Products ∧
      handed.Products.length = 1 ∧
      List.Forall₂ (fun p q => (listProdRepo.GetById p.ID store2).1 = Except.ok q)
        [ref 1] handed.Products) ∧
    (Update apptSvc (hm 9 0) 2 { slot 9 "Luis" (hm 11 30) (hm 12 0) with
      Products := [ref 1] } store2).1.1 = none ∧
    (Update apptSvc (hm 9 0) 2 { slot 9 "Luis" (hm 11 30) (hm 12 0) with
      Products := [ref 1] } store2).1.2.Products = [⟨1, "Haircut", 20, "", 0, 0⟩] ∧
    (Update apptSvc (hm 9 0) 2 { slot 9 "Luis" (hm 11 30) (hm 12 0) with
      Products := [ref 1] } store2).2.calls.getLast? =
        some (Call.apptUpdate ({ slot 2 "Luis" (hm 11 30) (hm 12 0) with
          Products := [⟨1, "Haircut", 20, "", 0, 0⟩] } : Appointment Int)) :=
  ⟨(products_resolved 0 store1).1
      { slot 0 "Bea" (hm 10 30) (hm 11 0) with Products := [ref 1, ref 1] } (by decide),
   (products_resolved (hm 9 0) store2).2.1 2
      { slot 9 "Luis" (hm 11 30) (hm 12 0) with Products := [ref 1] } (by decide),
   (products_resolved (hm 9 0) store2).2.2.2 2
      { slot 9 "Luis" (hm 11 30) (hm 12 0) with Products := [ref 1] }
      (by decide) (by decide) (by decide) (by decide) (by decide),
   by decide, by decide⟩

/-- C8, the claim as stated fails: with an empty appointment store and no product 999, a
candidate for 10:00 to 10:30 referencing product 999 is rejected by an error that is not
`domain.ErrNotFound` in the `errors.Is` sense. -/
theorem schedule_missing_product_not_ErrNotFound :
    ¬ ∃ e : Error,
      (Schedule apptSvc (hm 8 0) { slot 0 "Bea" (hm 10 0) (hm 10 30) with
        Products := [ref 999] } store0).1.1 = some e ∧ e.Is Error.ErrNotFound = true := by
  decide

/-- C8, amended: a candidate with valid times that starts at or after the end of every
stored appointment and references a product identifier absent from the catalog is rejected
by `Schedule` with the error made by `errors.New("el producto no existe")`, which is not
`domain.ErrNotFound` in the `errors.Is` sense; the stored appointments are unchanged and the
only repository calls made are the appointment `List` and product lookups (no `Create`). -/
theorem schedule_missing_product (now : Time) (appt : Appointment F) (w : Store F)
    (hnow : now ≤ appt.StartTime) (hend : appt.StartTime < appt.EndTime)
    (hfree : ∀ e ∈ w.appts, e.EndTime ≤ appt.StartTime)
    (hmiss : ∃ p ∈ appt.Products, ∀ q ∈ w.prods, q.ID ≠ p.ID) :
    (Schedule apptSvc now appt w).1.1 = some (Error.New "el producto no existe") ∧
      (Error.New "el producto no existe").Is Error.ErrNotFound = false ∧
      (Schedule apptSvc now appt w).2.appts = w.appts ∧
      ∃ ids : List Nat, ids <+: appt.Products.map (fun p => p.ID) ∧
        (Schedule apptSvc now appt w).2.calls =
          w.calls ++ Call.apptList :: ids.map (fun i => Call.prodGetById i) := by
  have h3 : ¬ (w.appts.any (fun existing => appointmentsOverlap appt existing) = true) := by
    rw [Bool.not_eq_true]
    exact (scan_false_iff appt w.appts).mpr hfree
  have h4 : ¬ ((resolveProducts listProdRepo appt.Products (w.record Call.apptList)).1.1 =
      none) := by
    rw [resolveProducts_none_iff]
    intro hall
    obtain ⟨p, hp, hq⟩ := hmiss
    obtain ⟨q, hqm, hid⟩ := hall p hp
    exact hq q hqm hid
  rw [Schedule_list, if_neg (not_lt.mpr hnow), if_neg (not_le.mpr hend), if_neg h3, if_neg h4]
  refine ⟨rfl, by decide, resolveProducts_appts _ _, ?_⟩
  obtain ⟨ids, hpre, hcalls⟩ :=
    resolveProducts_calls_lookups appt.Products (w.record Call.apptList)
  refine ⟨ids, hpre, ?_⟩
  simp only [hcalls]
  simp [Store.record]

/-- C8 amended, at the scenario of the spec: products `[999]` with no product 999. -/
theorem schedule_missing_product_witness :
    (Schedule apptSvc (hm 8 0) { slot 0 "Bea" (hm 10 30) (hm 11 0) with
        Products := [ref 999] } store1).1.1 = some (Error.New "el producto no existe") ∧
      (Schedule apptSvc (hm 8 0) { slot 0 "Bea" (hm 10 30) (hm 11 0) with
        Products := [ref 999] } store1).2.appts = store1.appts :=
  ⟨(schedule_missing_product (hm 8 0)
      { slot 0 "Bea" (hm 10 30) (hm 11 0) with Products := [ref 999] } store1
      (by decide) (by decide) (by decide) ⟨ref 999, by decide, by decide⟩).1,
   (schedule_missing_product (hm 8 0)
      { slot 0 "Bea" (hm 10 30) (hm 11 0) with Products := [ref 999] } store1
      (by decide) (by decide) (by decide) ⟨ref 999, by decide, by decide⟩).2.2.1⟩

/-- C9: catalog name uniqueness. In the list model with pairwise distinct identifiers, if
no two stored products share a name, then after a successful `ProductService.Create`
(which appends the product), `ProductService.Update` (which replaces the record stored
under the given identifier) and `ProductService.Delete` (which removes it) still no two
stored products share a name, and the identifiers are still distinct. -/
theorem name_uniqueness_invariant [Float64Ops F] (w : Store F)
    (hids : UniqueProdIDs w.prods) (hn : UniqueNames w.prods) :
    (∀ p : Product F, (ProductService.Create prodSvc p w).1.1 = none →
      (∃ stored : Product F, stored.Name = p.Name ∧
        (ProductService.Create prodSvc p w).2.prods = w.prods ++ [stored]) ∧
      UniqueNames (ProductService.Create prodSvc p w).2.prods ∧
      UniqueProdIDs (ProductService.Create prodSvc p w).2.prods) ∧
    (∀ (id : Nat) (p : Product F), (ProductService.Update prodSvc id p w).1.1 = none →
      (∃ stored : Product F, stored.ID = id ∧ stored.Name = p.Name ∧
        (ProductService.Update prodSvc id p w).2.prods =
          w.prods.map (fun r => if r.ID = id then stored else r)) ∧
      UniqueNames (ProductService.Update prodSvc id p w).2.prods ∧
      UniqueProdIDs (ProductService.Update prodSvc id p w).2.prods) ∧
    (∀ id : Nat, (ProductService.Delete prodSvc id w).1 = none →
      (ProductService.Delete prodSvc id w).2.prods =
        w.prods.filter (fun r => decide (r.ID ≠ id)) ∧
      UniqueNames (ProductService.Delete prodSvc id w).2.prods ∧
      UniqueProdIDs (ProductService.Delete prodSvc id w).2.prods) := by
  refine ⟨?_, ?_, ?_⟩
  · intro p hok
    rw [Create_list] at hok ⊢
    split_ifs at hok ⊢ with h1 h2 h3
    refine ⟨⟨{ p with ID := freshID (w.prods.map (fun r => r.ID)) }, rfl, rfl⟩, ?_, ?_⟩
    · unfold UniqueNames at hn ⊢
      simp only [List.map_append, List.map_cons, List.map_nil]
      rw [List.nodup_append]
      refine ⟨hn, List.nodup_singleton _, ?_⟩
      rw [List.disjoint_singleton]
      intro hmem
      apply h3
      rw [List.any_eq_true]
      obtain ⟨e, he, hname⟩ := List.mem_map.mp hmem
      exact ⟨e, he, by simpa using hname⟩
    · unfold UniqueProdIDs at hids ⊢
      simp only [List.map_append, List.map_cons, List.map_nil]
      rw [List.nodup_append]
      refine ⟨hids, List.nodup_singleton _, ?_⟩
      rw [List.disjoint_singleton]
      exact freshID_not_mem _
  · intro id p hok
    rw [ProductUpdate_list] at hok ⊢
    split_ifs at hok ⊢ with h1 h2 h3 h4
    refine ⟨⟨{ p with ID := id }, rfl, rfl, rfl⟩, ?_, ?_⟩
    · rw [UniqueNames_iff] at hn ⊢
      refine pairwise_replace (fun r : Product F => r.ID) _ w.prods id _ hn hids ?_
      intro e he hne
      have hname : e.Name ≠ p.Name := by
        intro heq
        apply h4
        rw [List.any_eq_true]
        exact ⟨e, he, by simp [heq, hne]⟩
      exact ⟨hname, fun h => hname h.symm⟩
    · unfold UniqueProdIDs at hids ⊢
      rw [prod_map_replace_IDs id { p with ID := id } rfl]
      exact hids
  · intro id hok
    rw [ProductDelete_list] at hok ⊢
    split_ifs at hok ⊢ with h1
    refine ⟨rfl, ?_, ?_⟩
    · exact List.Nodup.sublist ((List.filter_sublist w.prods).map _) hn
    · exact List.Nodup.sublist ((List.filter_sublist w.prods).map _) hids

/-- C9 at a concrete catalog: adding "Shave" next to "Haircut" keeps names distinct. -/
theorem name_uniqueness_invariant_witness :
    UniqueNames
      (ProductService.Create prodSvc (⟨0, "Shave", 15, "", 0, 0⟩ : Product Int) store1).2.prods :=
  (((name_uniqueness_invariant store1 (by unfold UniqueProdIDs; decide)
    (by unfold UniqueNames; decide)).1
      (⟨0, "Shave", 15, "", 0, 0⟩ : Product Int) (by decide)).2).1

/-- C10: in the list model (whose persistence never fails), `ProductService.Create` returns
an error exactly when the name is empty, or the price is `<= 0`, or some stored product has
the same name (string equality, no normalisation); when it returns an error the stored
products are unchanged; and after a successful `Create`, a second `Create` with the same
name returns an error. -/
theorem create_error_iff [Float64Ops F] (p : Product F) (w : Store F) :
    ((ProductService.Create prodSvc p w).1.1 ≠ none ↔
      (p.Name = "" ∨ Float64Ops.le p.Price Float64Ops.zero = true ∨
        ∃ e ∈ w.prods, e.Name = p.Name)) ∧
    ((ProductService.Create prodSvc p w).1.1 ≠ none →
      (ProductService.Create prodSvc p w).2.prods = w.prods) ∧
    (∀ p2 : Product F, p2.Name = p.Name →
      (ProductService.Create prodSvc p w).1.1 = none →
      (ProductService.Create prodSvc p2 (ProductService.Create prodSvc p w).2).1.1 ≠ none) := by
  have hscan : (w.prods.any (fun e => decide (e.Name = p.Name)) = true) ↔
      ∃ e ∈ w.prods, e.Name = p.Name := by
    simp
  refine ⟨?_, ?_, ?_⟩
  · rw [Create_list]
    split_ifs with h1 h2 h3
    · simp [h1]
    · simp [h2]
    · simp only [ne_eq, reduceCtorEq, not_false_eq_true, true_iff]
      exact Or.inr (Or.inr (hscan.mp h3))
    · simp only [ne_eq, not_true_eq_false, false_iff, not_or]
      exact ⟨h1, h2, fun h => h3 (hscan.mpr h)⟩
  · rw [Create_list]
    split_ifs with h1 h2 h3
    · intro _; rfl
    · intro _; rfl
    · intro _; rfl
    · intro h; exact absurd rfl h
  · intro p2 hname hok
    rw [Create_list p w] at hok ⊢
    split_ifs at hok ⊢ with h1 h2 h3
    rw [Create_list]
    split_ifs with g1 g2 g3
    · simp
    · simp
    · simp
    · exfalso
      apply g3
      rw [List.any_eq_true]
      exact ⟨{ p with ID := freshID (w.prods.map (fun r => r.ID)) }, by simp, by simp [hname]⟩

/-- C10 at a concrete input: "Shave" is created once, and the second `Create` of a product
named "Shave" fails. -/
theorem create_error_iff_witness :
    (ProductService.Create prodSvc (⟨0, "Shave", 9, "x", 0, 0⟩ : Product Int)
      (ProductService.Create prodSvc (⟨0, "Shave", 15, "", 0, 0⟩ : Product Int)
        store1).2).1.1 ≠ none :=
  (create_error_iff (⟨0, "Shave", 15, "", 0, 0⟩ : Product Int) store1).2.2
    (⟨0, "Shave", 9, "x", 0, 0⟩ : Product Int) (by decide) (by decide)

/-- C11: for an identifier under which a product is stored and a payload with a non-empty
name and a price that is not `<= 0`, `ProductService.Update` fails with the duplicate-name
error exactly when a stored product with a different identifier holds the payload name;
whenever it succeeds, the record handed to the repository `Update` (and left to the caller)
carries the identifier `id`, whatever identifier the payload carried; and when names are
unique in the catalog, re-submitting the name stored under `id` succeeds. -/
theorem product_update_conflict_iff [Float64Ops F] (id : Nat) (p : Product F) (w : Store F)
    (hex : ∃ e ∈ w.prods, e.ID = id) (hname : p.Name ≠ "")
    (hprice : Float64Ops.le p.Price Float64Ops.zero = false) :
    ((ProductService.Update prodSvc id p w).1.1 =
        some (Error.New "ya existe un producto con ese nombre") ↔
      ∃ e ∈ w.prods, e.ID ≠ id ∧ e.Name = p.Name) ∧
    ((ProductService.Update prodSvc id p w).1.1 = none ↔
      ¬ ∃ e ∈ w.prods, e.ID ≠ id ∧ e.Name = p.Name) ∧
    ((ProductService.Update prodSvc id p w).1.1 = none →
      (ProductService.Update prodSvc id p w).2.calls.getLast? =
        some (Call.prodUpdate { p with ID := id }) ∧
      (ProductService.Update prodSvc id p w).1.2 = { p with ID := id }) ∧
    (UniqueNames w.prods → (∃ e ∈ w.prods, e.ID = id ∧ e.Name = p.Name) →
      (ProductService.Update prodSvc id p w).1.1 = none) := by
  have hfind := find_isNone_of_mem (fun r : Product F => r.ID) w.prods id hex
  have hprice2 : ¬ (Float64Ops.le p.Price Float64Ops.zero = true) := by
    rw [hprice]; exact Bool.false_ne_true
  have hfind2 : ¬ ((w.prods.find? (fun r => decide (r.ID = id))).isNone = true) := by
    rw [hfind]; exact Bool.false_ne_true
  have key : (ProductService.Update prodSvc id p w).1.1 = none ↔
      ¬ ∃ e ∈ w.prods, e.ID ≠ id ∧ e.Name = p.Name := by
    rw [ProductUpdate_list, if_neg hname, if_neg hprice2, if_neg hfind2]
    by_cases h3 : w.prods.any (fun e => decide (e.Name = p.Name) && decide (e.ID ≠ id)) = true
    · rw [if_pos h3]
      simp only [reduceCtorEq, false_iff, not_not]
      exact (nameScan_iff id p w.prods).mp h3
    · rw [if_neg h3]
      simp only [true_iff]
      exact fun h => h3 ((nameScan_iff id p w.prods).mpr h)
  refine ⟨?_, key, ?_, ?_⟩
  · rw [ProductUpdate_list, if_neg hname, if_neg hprice2, if_neg hfind2]
    by_cases h3 : w.prods.any (fun e => decide (e.Name = p.Name) && decide (e.ID ≠ id)) = true
    · rw [if_pos h3]
      simp only [true_iff]
      exact (nameScan_iff id p w.prods).mp h3
    · rw [if_neg h3]
      simp only [reduceCtorEq, false_iff]
      exact fun h => h3 ((nameScan_iff id p w.prods).mpr h)
  · intro hok
    have h3 := key.mp hok
    rw [← nameScan_iff] at h3
    rw [ProductUpdate_list, if_neg hname, if_neg hprice2, if_neg hfind2, if_neg h3]
    exact ⟨by simp, rfl⟩
  · intro huniq hown
    rw [key]
    rintro ⟨e, he, hne, hn⟩
    obtain ⟨x, hx, hxid, hxn⟩ := hown
    have hinj := List.inj_on_of_nodup_map huniq
    have : e = x := hinj he hx (hn.trans hxn.symm)
    exact hne (this ▸ hxid)

/-- C11 at a concrete catalog: renaming product 2 to "Haircut", held by product 1, is a
conflict. -/
theorem product_update_conflict_iff_witness :
    (ProductService.Update prodSvc 2 (⟨0, "Haircut", 15, "", 0, 0⟩ : Product Int)
      (⟨[], [⟨1, "Haircut", 20, "", 0, 0⟩, ⟨2, "Shave", 15, "", 0, 0⟩], []⟩ : Store Int)).1.1 =
        some (Error.New "ya existe un producto con ese nombre") :=
  (product_update_conflict_iff 2 (⟨0, "Haircut", 15, "", 0, 0⟩ : Product Int)
    (⟨[], [⟨1, "Haircut", 20, "", 0, 0⟩, ⟨2, "Shave", 15, "", 0, 0⟩], []⟩ : Store Int)
    (by decide) (by decide) (by decide)).1.mpr (by decide)

/-- C12: when the persistence lookup of `id` fails with `err` (any repository), `Update`
(for any payload), `Cancel` and `GetTotalPrice` each return exactly `err`, `GetTotalPrice`
with total zero, and the persistence state is the one the lookup left: no further call is
made. In the list model, for an identifier under which nothing is stored, that error is
`domain.ErrNotFound`, the stored appointments are unchanged and the only call made is the
lookup. -/
theorem absent_id_not_found [Float64Ops F] {σ : Type} (now : Time) (id : Nat)
    (upd : Appointment F) :
    (∀ (s : AppointmentService F σ) (w w1 : σ) (err : Error),
      s.apptRepo.GetById id w = (Except.error err, w1) →
        Update s now id upd w = ((some err, upd), w1) ∧
        Cancel s id w = (some err, w1) ∧
        GetTotalPrice s id w = ((Float64Ops.zero, some err), w1)) ∧
    (∀ w : Store F, (∀ e ∈ w.appts, e.ID ≠ id) →
      (Update apptSvc now id upd w).1 = (some Error.ErrNotFound, upd) ∧
      (Cancel apptSvc id w).1 = some Error.ErrNotFound ∧
      (GetTotalPrice apptSvc id w).1 = (Float64Ops.zero, some Error.ErrNotFound) ∧
      (Update apptSvc now id upd w).2.appts = w.appts ∧
      (Cancel apptSvc id w).2.appts = w.appts ∧
      (GetTotalPrice apptSvc id w).2.appts = w.appts ∧
      (Update apptSvc now id upd w).2.calls = w.calls ++ [Call.apptGetById id] ∧
      (Cancel apptSvc id w).2.calls = w.calls ++ [Call.apptGetById id] ∧
      (GetTotalPrice apptSvc id w).2.calls = w.calls ++ [Call.apptGetById id]) := by
  have gen : ∀ (τ : Type) (s : AppointmentService F τ) (w w1 : τ) (err : Error),
      s.apptRepo.GetById id w = (Except.error err, w1) →
        Update s now id upd w = ((some err, upd), w1) ∧
        Cancel s id w = (some err, w1) ∧
        GetTotalPrice s id w = ((Float64Ops.zero, some err), w1) := by
    intro τ s w w1 err h
    refine ⟨?_, ?_, ?_⟩
    · simp only [Update, h]
    · simp only [Cancel, h]
    · simp only [GetTotalPrice, h]
  refine ⟨gen σ, ?_⟩
  intro w habs
  obtain ⟨h1, h2, h3⟩ := gen (Store F) apptSvc w _ _ (GetById_absent w id habs)
  rw [h1, h2, h3]
  exact ⟨rfl, rfl, rfl, rfl, rfl, rfl, rfl, rfl, rfl⟩

/-- C12 at a concrete store: nothing is stored under 5. -/
theorem absent_id_not_found_witness :
    (Update apptSvc 0 5 (slot 0 "Bea" (hm 10 30) (hm 11 0)) store1).1 =
        (some Error.ErrNotFound, slot 0 "Bea" (hm 10 30) (hm 11 0)) ∧
      (Cancel apptSvc 5 store1).1 = some Error.ErrNotFound ∧
      (GetTotalPrice apptSvc 5 store1).1 = (0, some Error.ErrNotFound) :=
  ⟨((@absent_id_not_found Int _ (Store Int) 0 5
      (slot 0 "Bea" (hm 10 30) (hm 11 0))).2 store1 (by decide)).1,
   ((@absent_id_not_found Int _ (Store Int) 0 5
      (slot 0 "Bea" (hm 10 30) (hm 11 0))).2 store1 (by decide)).2.1,
   ((@absent_id_not_found Int _ (Store Int) 0 5
      (slot 0 "Bea" (hm 10 30) (hm 11 0))).2 store1 (by decide)).2.2.1⟩

/-- C13: identity is preserved by `Update`. When `Update` of `id` succeeds, whatever
identifier the payload carries, a record is stored under `id`; the calls made are the
lookup of `id`, `List`, the product lookups and last the repository `Update` (no `Create`)
on a record whose identifier is `id`; in the list model that record replaces the one stored
under `id`, so the stored identifiers, the number of stored appointments and every
appointment stored under another identifier are unchanged. -/
theorem update_preserves_identity (now : Time) (id : Nat) (upd : Appointment F)
    (w : Store F) (hok : (Update apptSvc now id upd w).1.1 = none) :
    (∃ e ∈ w.appts, e.ID = id) ∧
    (∃ handed : Appointment F, handed.ID = id ∧
      (Update apptSvc now id upd w).2.calls =
        w.calls ++ [Call.apptGetById id, Call.apptList] ++
          upd.Products.map (fun p => Call.prodGetById p.ID) ++ [Call.apptUpdate handed] ∧
      (Update apptSvc now id upd w).1.2 = handed ∧
      (Update apptSvc now id upd w).2.appts =
        w.appts.map (fun r => if r.ID = id then handed else r)) ∧
    (Update apptSvc now id upd w).2.appts.map (fun r => r.ID) = w.appts.map (fun r => r.ID) ∧
    (Update apptSvc now id upd w).2.appts.length = w.appts.length ∧
    (Update apptSvc now id upd w).2.appts.filter (fun r => decide (r.ID ≠ id)) =
      w.appts.filter (fun r => decide (r.ID ≠ id)) := by
  cases hf : w.appts.find? (fun r => decide (r.ID = id)) with
  | none =>
    rw [Update_list_absent now id upd w hf] at hok
    simp at hok
  | some existing =>
    have hmem := find_ID (fun r : Appointment F => r.ID) _ _ _ hf
    rw [Update_list_present now id upd existing w hf] at hok ⊢
    split_ifs at hok ⊢ with h1 h2 h3 h4
    refine ⟨⟨existing, hmem.2, hmem.1⟩, ⟨updateArg id upd w, rfl, rfl, rfl, rfl⟩, ?_, ?_, ?_⟩
    · exact map_replace_IDs id (updateArg id upd w) rfl w.appts
    · simp
    · exact filter_map_replace id (updateArg id upd w) rfl w.appts

/-- C13 at a concrete store: updating appointment 2 with a payload that carries the
identifier 9 leaves the stored identifiers as they were. -/
theorem update_preserves_identity_witness :
    (Update apptSvc (hm 9 0) 2 (slot 9 "Luis" (hm 11 30) (hm 12 0)) store2).2.appts.map
      (fun r => r.ID) = store2.appts.map (fun r => r.ID) :=
  (update_preserves_identity (hm 9 0) 2 (slot 9 "Luis" (hm 11 30) (hm 12 0)) store2
    (by decide)).2.2.1

/-- C14, the claim as stated fails: scheduling 10:00 to 10:30 when it is already 12:00 is
rejected by an error that is not `domain.ErrInvalidInput` in the `errors.Is` sense. -/
theorem schedule_past_not_ErrInvalidInput :
    ¬ ∃ e : Error,
      (Schedule apptSvc (hm 12 0) (slot 0 "Bea" (hm 10 0) (hm 10 30)) store0).1.1 = some e ∧
        e.Is Error.ErrInvalidInput = true := by
  decide

/-- C14, amended: every rejection for semantically illegal input returns a value made by
`errors.New` with the message of the check that failed, for any repository: `Schedule` and
`Update` (once the lookup of `id` has succeeded) for a start before now or an end not after
the start, `ProductService.Create` and `ProductService.Update` for an empty name or a price
`<= 0`; no value made by `errors.New` is `domain.ErrInvalidInput` in the `errors.Is`
sense. -/
theorem validation_errors [Float64Ops F] {σ : Type} (now : Time) :
    (∀ (s : AppointmentService F σ) (appt : Appointment F) (w : σ),
      (appt.StartTime < now →
        (Schedule s now appt w).1.1 = some (Error.New "la cita debe ser en el pasado")) ∧
      (¬ appt.StartTime < now → appt.EndTime ≤ appt.StartTime →
        (Schedule s now appt w).1.1 =
          some (Error.New "la hora de fin debe ser posterior a la de inicio"))) ∧
    (∀ (s : AppointmentService F σ) (id : Nat) (upd existing : Appointment F) (w w1 : σ),
      s.apptRepo.GetById id w = (Except.ok existing, w1) →
      (upd.StartTime < now →
        (Update s now id upd w).1.1 = some (Error.New "la cita no puede ser en el pasado")) ∧
      (¬ upd.StartTime < now → upd.EndTime ≤ upd.StartTime →
        (Update s now id upd w).1.1 =
          some (Error.New "la hora de fin debe ser posterior a la de inicio"))) ∧
    (∀ (s : ProductService F σ) (id : Nat) (p : Product F) (w : σ),
      (p.Name = "" →
        (ProductService.Create s p w).1.1 =
          some (Error.New "el nombre del producto no puede estar vació") ∧
        (ProductService.Update s id p w).1.1 =
          some (Error.New "el nombre del producto no puede estar vació")) ∧
      (p.Name ≠ "" → Float64Ops.le p.Price Float64Ops.zero = true →
        (ProductService.Create s p w).1.1 =
          some (Error.New "el precio del producto debe ser mayor a 0") ∧
        (ProductService.Update s id p w).1.1 =
          some (Error.New "el precio del producto debe ser mayor a 0"))) ∧
    (∀ msg : String, (Error.New msg).Is Error.ErrInvalidInput = false) := by
  refine ⟨?_, ?_, ?_, ?_⟩
  · intro s appt w
    constructor
    · intro h1
      simp only [Schedule, h1, if_true]
    · intro h1 h2
      have h2n : ¬ (appt.EndTime > appt.StartTime) := not_lt.mpr h2
      simp only [Schedule, h1, h2n, if_false, not_false_eq_true, if_true]
  · intro s id upd existing w w1 hget
    constructor
    · intro h1
      simp only [Update, hget, h1, if_true]
    · intro h1 h2
      have h2n : ¬ (upd.EndTime > upd.StartTime) := not_lt.mpr h2
      simp only [Update, hget, h1, h2n, if_false, not_false_eq_true, if_true]
  · intro s id p w
    constructor
    · intro h1
      simp only [ProductService.Create, ProductService.Update, h1, if_true, and_self]
    · intro h1 h2
      simp only [ProductService.Create, ProductService.Update, h1, h2, if_false, if_true,
        and_self]
  · intro msg
    simp [Error.Is]

/-- C14 amended, at a concrete input: a slot in the past. -/
theorem validation_errors_witness :
    (Schedule apptSvc (hm 12 0) (slot 0 "Bea" (hm 10 0) (hm 10 30)) store0).1.1 =
      some (Error.New "la cita debe ser en el pasado") :=
  ((@validation_errors Int _ (Store Int) (hm 12 0)).1 apptSvc
    (slot 0 "Bea" (hm 10 0) (hm 10 30)) store0).1 (by decide)

/-- C15, the claim as stated fails for `AppointmentService.Update`: with a zero-length
payload, `Update` of the stored identifier 1 has called the repository (the lookup is in
the trace) before it returns the validation error, and `Update` of the identifier 5, under
which nothing is stored, returns not-found instead: the outcome depends on the stored
state. -/
theorem update_looks_up_before_validating :
    (Update apptSvc 0 1 (slot 0 "Bea" (hm 10 0) (hm 10 0)) store1).2.calls =
        [Call.apptGetById 1] ∧
      (Update apptSvc 0 1 (slot 0 "Bea" (hm 10 0) (hm 10 0)) store1).1.1 =
        some (Error.New "la hora de fin debe ser posterior a la de inicio") ∧
      (Update apptSvc 0 5 (slot 0 "Bea" (hm 10 0) (hm 10 0)) store1).1.1 =
        some Error.ErrNotFound := by
  refine ⟨by decide, by decide, by decide⟩

/-- C15, amended: for `Schedule`, `ProductService.Create` and `ProductService.Update` an
invalid payload (start before now, end not after start, empty name, price `<= 0`) yields a
validation error that is the same for every repository and every persistence state, and the
state is returned untouched: no repository method has been called.
`AppointmentService.Update` first looks `id` up; once that lookup has succeeded, an invalid
payload yields a validation error that is the same for every repository and state, and the
state is the one the lookup left: no further repository method has been called. -/
theorem validation_before_persistence [Float64Ops F] {σ : Type} (now : Time) :
    (∀ appt : Appointment F, (appt.StartTime < now ∨ appt.EndTime ≤ appt.StartTime) →
      ∃ e e2 : Error,
        (∀ (s : AppointmentService F σ) (w : σ), Schedule s now appt w = ((some e, appt), w)) ∧
        (∀ (s : AppointmentService F σ) (id : Nat) (existing : Appointment F) (w w1 : σ),
          s.apptRepo.GetById id w = (Except.ok existing, w1) →
            Update s now id appt w = ((some e2, { appt with ID := existing.ID }), w1))) ∧
    (∀ p : Product F, (p.Name = "" ∨ Float64Ops.le p.Price Float64Ops.zero = true) →
      ∃ e : Error, ∀ (s : ProductService F σ) (id : Nat) (w : σ),
        ProductService.Create s p w = ((some e, p), w) ∧
        ProductService.Update s id p w = ((some e, p), w)) := by
  constructor
  · intro appt hbad
    by_cases h1 : appt.StartTime < now
    · refine ⟨Error.New "la cita debe ser en el pasado",
        Error.New "la cita no puede ser en el pasado", ?_, ?_⟩
      · intro s w
        simp only [Schedule, h1, if_true]
      · intro s id existing w w1 hget
        simp only [Update, hget, h1, if_true]
    · have h2 : ¬ (appt.EndTime > appt.StartTime) := not_lt.mpr (hbad.resolve_left h1)
      refine ⟨Error.New "la hora de fin debe ser posterior a la de inicio",
        Error.New "la hora de fin debe ser posterior a la de inicio", ?_, ?_⟩
      · intro s w
        simp only [Schedule, h1, h2, if_false, not_false_eq_true, if_true]
      · intro s id existing w w1 hget
        simp only [Update, hget, h1, h2, if_false, not_false_eq_true, if_true]
  · intro p hbad
    by_cases h1 : p.Name = ""
    · refine ⟨Error.New "el nombre del producto no puede estar vació", ?_⟩
      intro s id w
      simp only [ProductService.Create, ProductService.Update, h1, if_true, and_self]
    · have h2 := hbad.resolve_left h1
      refine ⟨Error.New "el precio del producto debe ser mayor a 0", ?_⟩
      intro s id w
      simp only [ProductService.Create, ProductService.Update, h1, h2, if_false, if_true,
        and_self]

/-- C15 amended, at a concrete input: a product with an empty name is rejected by `Create`
with the trace of repository calls, and the whole store, untouched. -/
theorem validation_before_persistence_witness :
    ∃ e : Error, ∀ (s : ProductService Int (Store Int)) (id : Nat) (w : Store Int),
      ProductService.Create s (⟨0, "", 15, "", 0, 0⟩ : Product Int) w =
        ((some e, (⟨0, "", 15, "", 0, 0⟩ : Product Int)), w) ∧
      ProductService.Update s id (⟨0, "", 15, "", 0, 0⟩ : Product Int) w =
        ((some e, (⟨0, "", 15, "", 0, 0⟩ : Product Int)), w) :=
  (@validation_before_persistence Int _ (Store Int) 0).2
    (⟨0, "", 15, "", 0, 0⟩ : Product Int) (Or.inl (by decide))

/-- C16: Invariant A on stored records. If every stored appointment ends strictly after it
starts, then after a successful `Schedule` and after a successful `Update` every stored
appointment still ends strictly after it starts. -/
theorem end_after_start_invariant (now : Time) (w : Store F)
    (hinv : ∀ e ∈ w.appts, e.StartTime < e.EndTime) :
    (∀ appt : Appointment F, (Schedule apptSvc now appt w).1.1 = none →
      ∀ e ∈ (Schedule apptSvc now appt w).2.appts, e.StartTime < e.EndTime) ∧
    (∀ (id : Nat) (upd : Appointment F), (Update apptSvc now id upd w).1.1 = none →
      ∀ e ∈ (Update apptSvc now id upd w).2.appts, e.StartTime < e.EndTime) := by
  constructor
  · intro appt hok
    rw [Schedule_list] at hok ⊢
    split_ifs at hok ⊢ with h1 h2 h3 h4
    intro e he
    simp only [List.mem_append, List.mem_singleton] at he
    rcases he with he | he
    · exact hinv e he
    · subst he
      exact not_le.mp h2
  · intro id upd hok
    cases hf : w.appts.find? (fun r => decide (r.ID = id)) with
    | none =>
      rw [Update_list_absent now id upd w hf] at hok
      simp at hok
    | some existing =>
      rw [Update_list_present now id upd existing w hf] at hok ⊢
      split_ifs at hok ⊢ with h1 h2 h3 h4
      intro e he
      simp only [List.mem_map] at he
      obtain ⟨r, hr, hre⟩ := he
      by_cases hid : r.ID = id
      · rw [if_pos hid] at hre
        subst hre
        exact not_le.mp h2
      · rw [if_neg hid] at hre
        subst hre
        exact hinv r hr

/-- C16 at a concrete store: after booking 10:30 to 11:00 next to 10:00 to 10:30, the new
record is stored under the identifier 2 and ends after it starts. -/
theorem end_after_start_invariant_witness :
    slot 2 "Bea" (hm 10 30) (hm 11 0) ∈
        (Schedule apptSvc 0 (slot 0 "Bea" (hm 10 30) (hm 11 0)) store1).2.appts ∧
      (slot 2 "Bea" (hm 10 30) (hm 11 0)).StartTime <
        (slot 2 "Bea" (hm 10 30) (hm 11 0)).EndTime :=
  ⟨by decide,
   (end_after_start_invariant 0 store1 (by decide)).1
    (slot 0 "Bea" (hm 10 30) (hm 11 0)) (by decide)
    (slot 2 "Bea" (hm 10 30) (hm 11 0)) (by decide)⟩

/-- C17, evaluated on the code: for a = 09:00 to 09:30 and b = 10:00 to 10:30 the helper
answers true on (a, b) although b does not start before a ends, and false on (b, a): it is
neither the symmetric test nor symmetric. -/
theorem appointmentsOverlap_one_sided :
    appointmentsOverlap (slot 1 "Ana" (hm 9 0) (hm 9 30)) (slot 2 "Luis" (hm 10 0) (hm 10 30)) =
        true ∧
      ¬ overlapSym (slot 1 "Ana" (hm 9 0) (hm 9 30)) (slot 2 "Luis" (hm 10 0) (hm 10 30)) ∧
      appointmentsOverlap (slot 2 "Luis" (hm 10 0) (hm 10 30)) (slot 1 "Ana" (hm 9 0) (hm 9 30)) =
        false := by
  refine ⟨by decide, by decide, by decide⟩

/-- C18, the claim as stated fails: with 10:00 to 10:30 stored and no product 999, a
candidate for 10:15 to 10:45 referencing product 999 gets the overlap error from `Schedule`,
and so does the same payload from `Update` of the other stored appointment, not the
product-existence failure. -/
theorem overlap_reported_before_missing_product :
    (Schedule apptSvc (hm 8 0) { slot 0 "Bea" (hm 10 15) (hm 10 45) with
        Products := [ref 999] } store1).1.1 =
        some (Error.New "el turno se solapa con otro existente") ∧
      (Update apptSvc (hm 8 0) 2 { slot 0 "Luis" (hm 10 15) (hm 10 45) with
        Products := [ref 999] } store2).1.1 =
        some (Error.New "el turno se solapa con otro existente") ∧
      some (Error.New "el turno se solapa con otro existente") ≠
        some (Error.New "el producto no existe") ∧
      (Error.New "el turno se solapa con otro existente").Is Error.ErrNotFound = false := by
  refine ⟨by decide, by decide, by decide, by decide⟩

/-- C18, amended: the conflict check comes before the product existence check. A candidate
with valid times that references a product absent from the catalog and overlaps a stored
appointment (symmetric predicate) gets the overlap error from `Schedule`, and no product is
looked up; `Update` of an identifier under which a record is stored does the same when the
overlapped appointment is stored under another identifier. -/
theorem overlap_checked_before_products (now : Time) (appt e : Appointment F) (w : Store F)
    (hnow : now ≤ appt.StartTime) (hend : appt.StartTime < appt.EndTime)
    (he : e ∈ w.appts) (hov : overlapSym appt e)
    (_hmiss : ∃ p ∈ appt.Products, ∀ q ∈ w.prods, q.ID ≠ p.ID) :
    ((Schedule apptSvc now appt w).1.1 =
        some (Error.New "el turno se solapa con otro existente") ∧
      (Schedule apptSvc now appt w).2.calls = w.calls ++ [Call.apptList]) ∧
    (∀ id : Nat, (∃ x ∈ w.appts, x.ID = id) → e.ID ≠ id →
      (Update apptSvc now id appt w).1.1 =
        some (Error.New "el turno se solapa con otro existente") ∧
      (Update apptSvc now id appt w).2.calls =
        w.calls ++ [Call.apptGetById id, Call.apptList]) := by
  constructor
  · have h3 : w.appts.any (fun existing => appointmentsOverlap appt existing) = true := by
      rw [List.any_eq_true]
      exact ⟨e, he, by simp [appointmentsOverlap, hov.1]⟩
    rw [Schedule_list, if_neg (not_lt.mpr hnow), if_neg (not_le.mpr hend), if_pos h3]
    exact ⟨rfl, rfl⟩
  · intro id hex hne
    cases hf : w.appts.find? (fun r => decide (r.ID = id)) with
    | none =>
      obtain ⟨x, hx, hxid⟩ := hex
      exact absurd hxid ((find_none_ID (fun r : Appointment F => r.ID) _ _).mp hf x hx)
    | some existing =>
      have h3 : w.appts.any
          (fun r => decide (r.ID ≠ id) && appointmentsOverlap appt r) = true := by
        rw [List.any_eq_true]
        exact ⟨e, he, by simp [appointmentsOverlap, hov.1, hne]⟩
      rw [Update_list_present now id appt existing w hf, if_neg (not_lt.mpr hnow),
        if_neg (not_le.mpr hend), if_pos h3]
      refine ⟨rfl, ?_⟩
      simp [Store.record]

/-- C18 amended, at a concrete input: stored 10:00 to 10:30, candidate 10:15 to 10:45
referencing the absent product 999. -/
theorem overlap_checked_before_products_witness :
    (Schedule apptSvc (hm 8 0) { slot 0 "Bea" (hm 10 15) (hm 10 45) with
        Products := [ref 999] } store1).1.1 =
        some (Error.New "el turno se solapa con otro existente") ∧
      (Schedule apptSvc (hm 8 0) { slot 0 "Bea" (hm 10 15) (hm 10 45) with
        Products := [ref 999] } store1).2.calls = store1.calls ++ [Call.apptList] :=
  (overlap_checked_before_products (hm 8 0)
    { slot 0 "Bea" (hm 10 15) (hm 10 45) with Products := [ref 999] }
    (slot 1 "Ana" (hm 10 0) (hm 10 30)) store1
    (by decide) (by decide) (by decide) (by decide) ⟨ref 999, by decide, by decide⟩).1

/-- C19: the acceptance rule of the code. For a candidate with valid times, `Schedule`
returns the overlap error exactly when some stored appointment ends after the candidate
starts; so it can succeed only when the candidate starts at or after the end of every stored
appointment, it does succeed then if every referenced product is in the catalog (a start
equal to the latest stored end is accepted), and a slot that ends before a stored, non-empty
appointment starts is rejected. `Update` of an identifier under which a record is stored
applies the same rule to the appointments stored under other identifiers. -/
theorem acceptance_rule (now : Time) (appt : Appointment F) (w : Store F)
    (hnow : now ≤ appt.StartTime) (hend : appt.StartTime < appt.EndTime) :
    ((Schedule apptSvc now appt w).1.1 =
        some (Error.New "el turno se solapa con otro existente") ↔
      ∃ e ∈ w.appts, appt.StartTime < e.EndTime) ∧
    ((Schedule apptSvc now appt w).1.1 = none →
      ∀ e ∈ w.appts, e.EndTime ≤ appt.StartTime) ∧
    ((∀ e ∈ w.appts, e.EndTime ≤ appt.StartTime) →
      (∀ p ∈ appt.Products, ∃ q ∈ w.prods, q.ID = p.ID) →
      (Schedule apptSvc now appt w).1.1 = none) ∧
    (∀ e ∈ w.appts, e.StartTime < e.EndTime → appt.EndTime ≤ e.StartTime →
      (Schedule apptSvc now appt w).1.1 =
        some (Error.New "el turno se solapa con otro existente")) ∧
    (∀ id : Nat, (∃ x ∈ w.appts, x.ID = id) →
      ((Update apptSvc now id appt w).1.1 =
          some (Error.New "el turno se solapa con otro existente") ↔
        ∃ e ∈ w.appts, e.ID ≠ id ∧ appt.StartTime < e.EndTime)) := by
  have hscan : w.appts.any (fun existing => appointmentsOverlap appt existing) = true ↔
      ∃ e ∈ w.appts, appt.StartTime < e.EndTime := by
    simp [appointmentsOverlap]
  have hiff : (Schedule apptSvc now appt w).1.1 =
        some (Error.New "el turno se solapa con otro existente") ↔
      ∃ e ∈ w.appts, appt.StartTime < e.EndTime := by
    rw [Schedule_list, if_neg (not_lt.mpr hnow), if_neg (not_le.mpr hend), ← hscan]
    by_cases h3 : w.appts.any (fun existing => appointmentsOverlap appt existing) = true
    · rw [if_pos h3]
      exact ⟨fun _ => h3, fun _ => rfl⟩
    · rw [if_neg h3]
      split_ifs with h4
      · exact ⟨fun h => absurd h (by simp), fun h => absurd h h3⟩
      · exact ⟨fun h => by simp at h, fun h => absurd h h3⟩
  refine ⟨hiff, ?_, ?_, ?_, ?_⟩
  · intro hok
    rw [Schedule_list] at hok
    split_ifs at hok with h1 h2 h3 h4
    exact (scan_false_iff appt w.appts).mp (by simpa using h3)
  · intro hfree hprods
    have h3 : ¬ (w.appts.any (fun existing => appointmentsOverlap appt existing) = true) := by
      rw [Bool.not_eq_true]
      exact (scan_false_iff appt w.appts).mpr hfree
    have h4 : (resolveProducts listProdRepo appt.Products (w.record Call.apptList)).1.1 =
        none := (resolveProducts_none_iff _ _).mpr hprods
    rw [Schedule_list, if_neg (not_lt.mpr hnow), if_neg (not_le.mpr hend), if_neg h3,
      if_pos h4]
  · intro e he hvalid hbefore
    exact hiff.mpr ⟨e, he, lt_trans (lt_of_lt_of_le hend hbefore) hvalid⟩
  · intro id hex
    cases hf : w.appts.find? (fun r => decide (r.ID = id)) with
    | none =>
      obtain ⟨x, hx, hxid⟩ := hex
      exact absurd hxid ((find_none_ID (fun r : Appointment F => r.ID) _ _).mp hf x hx)
    | some existing =>
      have hscan2 : w.appts.any
            (fun r => decide (r.ID ≠ id) && appointmentsOverlap appt r) = true ↔
          ∃ e ∈ w.appts, e.ID ≠ id ∧ appt.StartTime < e.EndTime := by
        simp [appointmentsOverlap]
      rw [Update_list_present now id appt existing w hf, if_neg (not_lt.mpr hnow),
        if_neg (not_le.mpr hend), ← hscan2]
      by_cases h3 : w.appts.any
          (fun r => decide (r.ID ≠ id) && appointmentsOverlap appt r) = true
      · rw [if_pos h3]
        exact ⟨fun _ => h3, fun _ => rfl⟩
      · rw [if_neg h3]
        split_ifs with h4
        · exact ⟨fun h => absurd h (by simp), fun h => absurd h h3⟩
        · exact ⟨fun h => by simp at h, fun h => absurd h h3⟩

/-- C19 at a concrete store: a candidate starting at 10:30, exactly when the stored
appointment ends, is accepted. -/
theorem acceptance_rule_witness :
    (Schedule apptSvc (hm 8 0) (slot 0 "Bea" (hm 10 30) (hm 11 0)) store1).1.1 = none :=
  (acceptance_rule (hm 8 0) (slot 0 "Bea" (hm 10 30) (hm 11 0)) store1
    (by decide) (by decide)).2.2.1 (by decide) (by decide)

end Claims

end BarberApi
